import Mathlib

/-!
# youtube_search_go: the Blob Locator and the Record Extractor

A shallow embedding of `youtubesearch.go`.  Byte slices are lists of naturals,
Go strings that hold decoded JSON text are sequences of code points, and Go
functions returning `(value, error)` return a `Result`, which also records a
run-time panic (a slice expression out of range, a failed type assertion).
The standard-library functions the source calls (`bytes.Index`,
`json.Unmarshal`, `url.QueryEscape`) are modelled next to the code that calls
them; `http.NewRequest`, the fetch step and the timer are parameters of
`Search`.
-/

set_option autoImplicit false
set_option maxRecDepth 100000
set_option exponentiation.threshold 2000

namespace YoutubeSearch

/-! ## Bytes -/

/-- A Go `[]byte`. -/
abbrev Bytes := List Nat

/-- UTF-8 encoding of one code point (`utf8.AppendRune`). -/
def utf8EncodeRune (r : Nat) : Bytes :=
  if r < 0x80 then [r]
  else if r < 0x800 then [0xC0 + r / 0x40, 0x80 + r % 0x40]
  else if r < 0x10000 then [0xE0 + r / 0x1000, 0x80 + r / 0x40 % 0x40, 0x80 + r % 0x40]
  else [0xF0 + r / 0x40000, 0x80 + r / 0x1000 % 0x40, 0x80 + r / 0x40 % 0x40, 0x80 + r % 0x40]

/-- The conversion `[]byte(s)` of a Go string. -/
def utf8 (s : String) : Bytes :=
  s.toList.flatMap fun c => utf8EncodeRune c.toNat

/-- Whether `s` begins with `sep` (`bytes.HasPrefix`). -/
def startsWith : Bytes → Bytes → Bool
  | _, [] => true
  | [], _ :: _ => false
  | x :: xs, y :: ys => x == y && startsWith xs ys

/-- Offset of the first instance of `sep` in `s`, if there is one. -/
def findIndex (sep : Bytes) : Bytes → Option Nat
  | [] => if startsWith [] sep then some 0 else none
  | x :: xs =>
    if startsWith (x :: xs) sep then some 0
    else (findIndex sep xs).map (· + 1)

/-- Go `bytes.Index(s, sep)`: the index of the first instance of `sep` in `s`,
or `-1` when `sep` is not present in `s`. -/
def bytesIndex (s sep : Bytes) : Int :=
  match findIndex sep s with
  | some i => (i : Int)
  | none => -1

/-- The slice expression `s[lo:]`; `none` is the run-time panic
"slice bounds out of range", raised unless `0 ≤ lo ≤ len(s)`. -/
def sliceFrom (s : Bytes) (lo : Int) : Option Bytes :=
  if 0 ≤ lo ∧ lo ≤ (s.length : Int) then some (s.drop lo.toNat) else none

/-- The slice expression `s[:hi]`; `none` is the run-time panic
"slice bounds out of range", raised unless `0 ≤ hi ≤ len(s)`. -/
def sliceTo (s : Bytes) (hi : Int) : Option Bytes :=
  if 0 ≤ hi ∧ hi ≤ (s.length : Int) then some (s.take hi.toNat) else none

/-! ## The Blob Locator (`search`, lines 99-104) -/

/-- The marker `dataBytes := []byte("ytInitialData")`. -/
def dataBytes : Bytes := utf8 "ytInitialData"

/-- The closing sequence `[]byte("};")`. -/
def closing : Bytes := utf8 "\x7d;"

/-- What one round of the loop of `search` does with a response body it has read. -/
inductive Located where
  /-- The marker is absent: the loop goes round again. -/
  | retry
  /-- The statement `return resBody[:end+1], nil`. -/
  | ret (blob : Bytes)
  /-- A slice expression was out of range. -/
  | panic
  deriving DecidableEq

/-- Lines 99-104 of `search`, applied to the body of a response. -/
def blobLocator (resBody : Bytes) : Located :=
  let pos := bytesIndex resBody dataBytes
  if pos > -1 then
    match sliceFrom resBody (pos + (dataBytes.length : Int) + 3) with
    | none => .panic
    | some resBody =>
      let end_ := bytesIndex resBody closing
      match sliceTo resBody (end_ + 1) with
      | none => .panic
      | some blob => .ret blob
  else .retry

/-- The byte sequence `sep` occurs in `s` at offset `p`. -/
def OccursAt (sep s : Bytes) (p : Nat) : Prop :=
  ∃ pre post, s = pre ++ sep ++ post ∧ pre.length = p

/-- The first occurrence of `sep` in `s` is at offset `p`. -/
def FirstAt (sep s : Bytes) (p : Nat) : Prop :=
  OccursAt sep s p ∧ ∀ q, q < p → ¬ OccursAt sep s q

/-! ## Results of Go functions -/

/-- The error values that occur in the package. -/
inductive GoError where
  /-- A `*json.SyntaxError`: the input is not the text of a JSON value. -/
  | syntaxError
  /-- A `*json.UnmarshalTypeError`: a JSON value does not fit the Go type it is decoded into. -/
  | unmarshalTypeError
  /-- The error of `Search`: "failed to perform search in time. Please try again". -/
  | timeout
  /-- The error of `search`: "client: status code isn't okay: %d". -/
  | statusCode (code : Int)
  /-- An error returned by `net/http` or `io`. -/
  | transport (tag : Nat)
  deriving DecidableEq

/-- Outcome of a Go function of result type `(α, error)`. -/
inductive Result (α : Type) where
  /-- The function returned `(a, nil)`. -/
  | ok (a : α)
  /-- The function returned the zero value and the error `e`. -/
  | err (e : GoError)
  /-- The function did not return: a run-time panic unwound it. -/
  | panic
  deriving DecidableEq

/-! ## The generic tree -/

/-- A JSON number as spelled in the text: `(-1)^neg * mant * 10^exp`. -/
structure Number where
  neg : Bool
  mant : Nat
  exp : Int
  deriving DecidableEq

/-- A JSON value; after decoding into `interface{}` these are Go's `nil`,
`bool`, `float64`, `string`, `[]interface{}` and `map[string]interface{}`.
The members of an object are kept in source order. -/
inductive JSON where
  | null
  | bool (b : Bool)
  | num (n : Number)
  | str (s : String)
  | arr (xs : List JSON)
  | obj (kvs : List (String × JSON))

/-- A Go `map[string]interface{}`, as the sequence of the assignments `m[k] = v`
that built it. -/
abbrev Object := List (String × JSON)

/-- The comma-ok lookup `v, ok := m[k]`: the latest assignment to `k` is the one
that counts. -/
def lookup (k : String) : Object → Option JSON
  | [] => none
  | (k', v) :: rest =>
    match lookup k rest with
    | some w => some w
    | none => if k' = k then some v else none

/-- The statement `delete(m, k)`. -/
def delete (k : String) (m : Object) : Object :=
  m.filter fun kv => kv.1 ≠ k

/-- The type assertion `v.(string)`; `none` is the panic of a failed assertion. -/
def asString : JSON → Option String
  | .str s => some s
  | _ => none

/-- The type assertion `v.(map[string]interface{})`. -/
def asMap : JSON → Option Object
  | .obj kvs => some kvs
  | _ => none

/-- The type assertion `v.([]interface{})`. -/
def asSlice : JSON → Option (List JSON)
  | .arr xs => some xs
  | _ => none

/-! ## `encoding/json`: the scanner -/

/-- The tokens of a JSON text. -/
inductive Token where
  | beginObject
  | endObject
  | beginArray
  | endArray
  | colon
  | comma
  /-- A string literal: the bytes between its quotes. -/
  | string (raw : Bytes)
  | number (n : Number)
  /-- One of `true`, `false`, `null`. -/
  | literal (v : JSON)

/-- Where the scanner stands inside a number (`stateNeg`, `state0`, `state1`,
`stateDot`, `stateDot0`, `stateE`, `stateESign`, `stateE0`). -/
inductive NumState where
  | neg | zero | int | dot | frac | e | esign | exp
  deriving DecidableEq

/-- The digits of a number read so far. -/
structure NumAcc where
  neg : Bool
  mant : Nat
  fracDigits : Nat
  expNeg : Bool
  exp : Nat

/-- The number a finished literal spells. -/
def NumAcc.toNumber (a : NumAcc) : Number :=
  { neg := a.neg, mant := a.mant,
    exp := (if a.expNeg then -(a.exp : Int) else (a.exp : Int)) - a.fracDigits }

/-- State of the scanner between two bytes. -/
inductive LexState where
  /-- Between tokens. -/
  | idle
  /-- Inside a string literal: the bytes read so far (latest first) and the
  position in an escape: `0` none, `1` after the backslash, `2..5` before the
  first..fourth hexadecimal digit of `\u`. -/
  | inString (acc : Bytes) (esc : Nat)
  | inNumber (st : NumState) (acc : NumAcc)
  /-- Inside `true`, `false` or `null`: the bytes still to come. -/
  | inLiteral (rest : Bytes) (v : JSON)

/-- The white space of JSON: space, tab, carriage return, line feed. -/
def isSpace (c : Nat) : Bool := c == 0x20 || c == 0x09 || c == 0x0D || c == 0x0A

/-- A decimal digit. -/
def isDigit (c : Nat) : Bool := 0x30 ≤ c && c ≤ 0x39

/-- A hexadecimal digit. -/
def isHex (c : Nat) : Bool :=
  isDigit c || (0x61 ≤ c && c ≤ 0x66) || (0x41 ≤ c && c ≤ 0x46)

/-- The scanner and the tokens it has produced, latest first. -/
abbrev Lexer := LexState × List Token

/-- A byte met between tokens (`stateBeginValue` and the punctuation of
`stateEndValue`). -/
def lexIdle (toks : List Token) (c : Nat) : Option Lexer :=
  if isSpace c then some (.idle, toks)
  else if c == 0x7B then some (.idle, .beginObject :: toks)
  else if c == 0x7D then some (.idle, .endObject :: toks)
  else if c == 0x5B then some (.idle, .beginArray :: toks)
  else if c == 0x5D then some (.idle, .endArray :: toks)
  else if c == 0x3A then some (.idle, .colon :: toks)
  else if c == 0x2C then some (.idle, .comma :: toks)
  else if c == 0x22 then some (.inString [] 0, toks)
  else if c == 0x2D then some (.inNumber .neg ⟨true, 0, 0, false, 0⟩, toks)
  else if c == 0x30 then some (.inNumber .zero ⟨false, 0, 0, false, 0⟩, toks)
  else if isDigit c then some (.inNumber .int ⟨false, c - 0x30, 0, false, 0⟩, toks)
  else if c == 0x74 then some (.inLiteral (utf8 "rue") (.bool true), toks)
  else if c == 0x66 then some (.inLiteral (utf8 "alse") (.bool false), toks)
  else if c == 0x6E then some (.inLiteral (utf8 "ull") .null, toks)
  else none

/-- A byte met inside a string literal (`stateInString`, `stateInStringEsc`,
`stateInStringEscU`...). -/
def lexString (toks : List Token) (acc : Bytes) (esc : Nat) (c : Nat) : Option Lexer :=
  if esc == 0 then
    if c == 0x22 then some (.idle, .string acc.reverse :: toks)
    else if c == 0x5C then some (.inString (c :: acc) 1, toks)
    else if c < 0x20 then none
    else some (.inString (c :: acc) 0, toks)
  else if esc == 1 then
    if c == 0x62 || c == 0x66 || c == 0x6E || c == 0x72 || c == 0x74
        || c == 0x5C || c == 0x2F || c == 0x22 then
      some (.inString (c :: acc) 0, toks)
    else if c == 0x75 then some (.inString (c :: acc) 2, toks)
    else none
  else if isHex c then some (.inString (c :: acc) (if esc == 5 then 0 else esc + 1), toks)
  else none

/-- A byte met inside a number: `some (some s)` when the number goes on in the
state `s`, `some none` when the number is complete and ends before the byte,
`none` when the byte can neither continue nor end the number. -/
def lexNumber (st : NumState) (a : NumAcc) (c : Nat) : Option (Option (NumState × NumAcc)) :=
  let digit := c - 0x30
  match st with
  | .neg =>
    if c == 0x30 then some (some (.zero, a))
    else if isDigit c then some (some (.int, { a with mant := digit }))
    else none
  | .zero =>
    if c == 0x2E then some (some (.dot, a))
    else if c == 0x65 || c == 0x45 then some (some (.e, a))
    else some none
  | .int =>
    if isDigit c then some (some (.int, { a with mant := a.mant * 10 + digit }))
    else if c == 0x2E then some (some (.dot, a))
    else if c == 0x65 || c == 0x45 then some (some (.e, a))
    else some none
  | .dot =>
    if isDigit c then
      some (some (.frac, { a with mant := a.mant * 10 + digit, fracDigits := a.fracDigits + 1 }))
    else none
  | .frac =>
    if isDigit c then
      some (some (.frac, { a with mant := a.mant * 10 + digit, fracDigits := a.fracDigits + 1 }))
    else if c == 0x65 || c == 0x45 then some (some (.e, a))
    else some none
  | .e =>
    if c == 0x2B then some (some (.esign, a))
    else if c == 0x2D then some (some (.esign, { a with expNeg := true }))
    else if isDigit c then some (some (.exp, { a with exp := digit }))
    else none
  | .esign =>
    if isDigit c then some (some (.exp, { a with exp := digit }))
    else none
  | .exp =>
    if isDigit c then some (some (.exp, { a with exp := a.exp * 10 + digit }))
    else some none

/-- One step of the scanner. -/
def lexByte (l : Lexer) (c : Nat) : Option Lexer :=
  match l with
  | (.idle, toks) => lexIdle toks c
  | (.inString acc esc, toks) => lexString toks acc esc c
  | (.inNumber st a, toks) =>
    match lexNumber st a c with
    | none => none
    | some (some (st', a')) => some (.inNumber st' a', toks)
    | some none => lexIdle (.number a.toNumber :: toks) c
  | (.inLiteral rest v, toks) =>
    match rest with
    | [] => none
    | x :: rest' =>
      if c == x then
        match rest' with
        | [] => some (.idle, .literal v :: toks)
        | _ :: _ => some (.inLiteral rest' v, toks)
      else none

/-- The scanner run over a whole text. -/
def lexBytes : Lexer → Bytes → Option Lexer
  | l, [] => some l
  | l, c :: cs =>
    match lexByte l c with
    | none => none
    | some l' => lexBytes l' cs

/-- The tokens of a text (the end of the input ends a number). -/
def tokenize (b : Bytes) : Option (List Token) :=
  match lexBytes (.idle, []) b with
  | some (.idle, toks) => some toks.reverse
  | some (.inNumber st a, toks) =>
    if st = .zero ∨ st = .int ∨ st = .frac ∨ st = .exp then
      some (Token.number a.toNumber :: toks).reverse
    else none
  | _ => none

/-! ## `encoding/json`: string literals -/

/-- Value of a hexadecimal digit. -/
def hexVal (c : Nat) : Nat :=
  if isDigit c then c - 0x30
  else if 0x61 ≤ c && c ≤ 0x66 then c - 0x61 + 10
  else c - 0x41 + 10

/-- The code unit spelled by the four hexadecimal digits of a `\u` escape. -/
def hex4 (a b c d : Nat) : Nat :=
  ((hexVal a * 16 + hexVal b) * 16 + hexVal c) * 16 + hexVal d

/-- The character an escape other than `\u` stands for. -/
def escapeRune (c : Nat) : Nat :=
  if c == 0x62 then 0x08
  else if c == 0x66 then 0x0C
  else if c == 0x6E then 0x0A
  else if c == 0x72 then 0x0D
  else if c == 0x74 then 0x09
  else c

/-- A UTF-8 continuation byte. -/
def isCont (c : Nat) : Bool := 0x80 ≤ c && c ≤ 0xBF

/-- The replacement character `unicode.ReplacementChar`. -/
def replacementChar : Nat := 0xFFFD

/-- The helper `unquote` of `encoding/json`, on the bytes between the quotes of a
scanned literal: escapes are resolved, a `\u` escape that is a surrogate is
joined to a following low surrogate or replaced by U+FFFD, and bytes that are
not well-formed UTF-8 are replaced by U+FFFD one byte at a time
(`utf8.DecodeRune`). -/
def unquoteRunes : Bytes → List Nat
  | [] => []
  | c :: rest =>
    let invalid := replacementChar :: unquoteRunes rest
    if c == 0x5C then
      match rest with
      | [] => []
      | e :: rest1 =>
        if e == 0x75 then
          match rest1 with
          | h1 :: h2 :: h3 :: h4 :: rest2 =>
            let rr := hex4 h1 h2 h3 h4
            let unpaired := replacementChar :: unquoteRunes rest2
            if 0xD800 ≤ rr && rr < 0xE000 then
              match rest2 with
              | b :: u :: g1 :: g2 :: g3 :: g4 :: rest3 =>
                let rr1 := hex4 g1 g2 g3 g4
                if b == 0x5C && u == 0x75 && isHex g1 && isHex g2 && isHex g3 && isHex g4
                    && rr < 0xDC00 && 0xDC00 ≤ rr1 && rr1 < 0xE000 then
                  ((rr - 0xD800) * 0x400 + (rr1 - 0xDC00) + 0x10000) :: unquoteRunes rest3
                else unpaired
              | _ => unpaired
            else rr :: unquoteRunes rest2
          | _ => []
        else escapeRune e :: unquoteRunes rest1
    else if c < 0x80 then c :: unquoteRunes rest
    else if 0xC2 ≤ c && c ≤ 0xDF then
      match rest with
      | b1 :: rest1 =>
        if isCont b1 then ((c - 0xC0) * 0x40 + (b1 - 0x80)) :: unquoteRunes rest1
        else invalid
      | [] => invalid
    else if 0xE0 ≤ c && c ≤ 0xEF then
      match rest with
      | b1 :: b2 :: rest2 =>
        if (if c == 0xE0 then 0xA0 else 0x80) ≤ b1 && b1 ≤ (if c == 0xED then 0x9F else 0xBF)
            && isCont b2 then
          (((c - 0xE0) * 0x40 + (b1 - 0x80)) * 0x40 + (b2 - 0x80)) :: unquoteRunes rest2
        else invalid
      | _ => invalid
    else if 0xF0 ≤ c && c ≤ 0xF4 then
      match rest with
      | b1 :: b2 :: b3 :: rest3 =>
        if (if c == 0xF0 then 0x90 else 0x80) ≤ b1 && b1 ≤ (if c == 0xF4 then 0x8F else 0xBF)
            && isCont b2 && isCont b3 then
          ((((c - 0xF0) * 0x40 + (b1 - 0x80)) * 0x40 + (b2 - 0x80)) * 0x40 + (b3 - 0x80))
            :: unquoteRunes rest3
        else invalid
      | _ => invalid
    else invalid

/-- The Go string a scanned string literal denotes. -/
def unquote (raw : Bytes) : String :=
  String.mk ((unquoteRunes raw).map Char.ofNat)

/-! ## `encoding/json`: values -/

/-- The limit `maxNestingDepth` of the scanner. -/
def maxNestingDepth : Nat := 10000

/-- An array or object whose end has not been read yet. -/
inductive Frame where
  /-- The elements read so far, latest first. -/
  | arr (acc : List JSON)
  /-- The members read so far, latest first, and the key read last. -/
  | obj (acc : List (String × JSON)) (key : String)

/-- What the grammar allows next. -/
inductive Expect where
  | value
  | valueOrEnd
  | keyOrEnd
  | key
  | colon
  | commaOrEnd
  | done (v : JSON)

/-- The open arrays and objects, innermost first, and what may follow. -/
abbrev Parser := List Frame × Expect

/-- A value is complete: it goes into the innermost open array or object. -/
def attach (v : JSON) : List Frame → Parser
  | [] => ([], .done v)
  | .arr acc :: st => (.arr (v :: acc) :: st, .commaOrEnd)
  | .obj acc key :: st => (.obj ((key, v) :: acc) key :: st, .commaOrEnd)

/-- A token where a value must begin. -/
def beginValue (stack : List Frame) : Token → Option Parser
  | .string raw => some (attach (.str (unquote raw)) stack)
  | .number n => some (attach (.num n) stack)
  | .literal v => some (attach v stack)
  | .beginArray =>
    if stack.length < maxNestingDepth then some (.arr [] :: stack, .valueOrEnd) else none
  | .beginObject =>
    if stack.length < maxNestingDepth then some (.obj [] "" :: stack, .keyOrEnd) else none
  | _ => none

/-- One step of the grammar. -/
def parseToken (p : Parser) (t : Token) : Option Parser :=
  match p.2, t, p.1 with
  | .value, t, st => beginValue st t
  | .valueOrEnd, .endArray, .arr _ :: st => some (attach (.arr []) st)
  | .valueOrEnd, t, st => beginValue st t
  | .keyOrEnd, .endObject, .obj _ _ :: st => some (attach (.obj []) st)
  | .keyOrEnd, .string raw, .obj acc _ :: st => some (.obj acc (unquote raw) :: st, .colon)
  | .key, .string raw, .obj acc _ :: st => some (.obj acc (unquote raw) :: st, .colon)
  | .colon, .colon, st => some (st, .value)
  | .commaOrEnd, .comma, .arr acc :: st => some (.arr acc :: st, .value)
  | .commaOrEnd, .endArray, .arr acc :: st => some (attach (.arr acc.reverse) st)
  | .commaOrEnd, .comma, .obj acc k :: st => some (.obj acc k :: st, .key)
  | .commaOrEnd, .endObject, .obj acc _ :: st => some (attach (.obj acc.reverse) st)
  | _, _, _ => none

/-- The grammar run over a sequence of tokens. -/
def parseTokens : Parser → List Token → Option Parser
  | p, [] => some p
  | p, t :: ts =>
    match parseToken p t with
    | none => none
    | some p' => parseTokens p' ts

/-- The value a text spells; `none` when the text is not one JSON value
(`checkValid` fails with a `*json.SyntaxError`). -/
def parseJSON (b : Bytes) : Option JSON :=
  match tokenize b with
  | none => none
  | some toks =>
    match parseTokens ([], .value) toks with
    | some (_, .done v) => some v
    | _ => none

/-! ## `encoding/json`: decoding

`json.Unmarshal` first checks that its input is the text of one JSON value and
then stores the value into its target.  A value that does not fit the type of
its target is recorded and decoding goes on, the recorded error being returned
at the end; `parseResponse` drops the target when the error is not nil, so the
functions below stop at the first such value.  A field is decoded in place: when
a key occurs again in an object, its value is decoded into what the field holds
by then. -/

/-- Whether `strconv.ParseFloat(s, 64)` accepts the number: its magnitude rounds
to a finite `float64`, which is to say it lies below `2^1024 - 2^970`. -/
def Number.fitsFloat64 (n : Number) : Bool :=
  if 0 ≤ n.exp then n.mant * 10 ^ n.exp.toNat < 2 ^ 1024 - 2 ^ 970
  else n.mant < (2 ^ 1024 - 2 ^ 970) * 10 ^ (-n.exp).toNat

mutual
/-- Whether a value decodes into `interface{}` without error: every number in it
is in the range of `float64`. -/
def JSON.decodable : JSON → Bool
  | .num n => n.fitsFloat64
  | .arr xs => decodableList xs
  | .obj kvs => decodableMembers kvs
  | _ => true
/-- `JSON.decodable` for the elements of an array. -/
def decodableList : List JSON → Bool
  | [] => true
  | x :: xs => x.decodable && decodableList xs
/-- `JSON.decodable` for the members of an object. -/
def decodableMembers : List (String × JSON) → Bool
  | [] => true
  | (_, v) :: kvs => v.decodable && decodableMembers kvs
end

/-- The least rune of the case-folding orbit of `c`, for the orbits that hold an
ASCII letter (`foldRune`): lower case goes to upper case, the long s to `S` and
the Kelvin sign to `K`. -/
def foldRune (c : Char) : Char :=
  if 0x61 ≤ c.toNat ∧ c.toNat ≤ 0x7A then Char.ofNat (c.toNat - 0x20)
  else if c.toNat = 0x17F then Char.ofNat 0x53
  else if c.toNat = 0x212A then Char.ofNat 0x4B
  else c

/-- Whether the key `key` of a JSON object selects the struct field tagged
`name`, a name made of ASCII letters: the match is exact or case-insensitive. -/
def fieldMatches (name key : String) : Bool :=
  key.toList.map foldRune == name.toList.map foldRune

/-- First step of `parseResponse`: `json.Unmarshal(response, &data)` for
`data` a `map[string]json.RawMessage`.  A raw message is held as the value it
spells. -/
def unmarshalRawMap (response : Bytes) : Except GoError Object :=
  match parseJSON response with
  | none => .error .syntaxError
  | some (.obj kvs) => .ok kvs
  | some .null => .ok []
  | some _ => .error .unmarshalTypeError

/-- Decoding a value into an element of type `map[string]interface{}` that
holds `cur`: `null` makes it nil, an object adds its members. -/
def decodeSection (cur : Object) : JSON → Except GoError Object
  | .null => .ok []
  | .obj kvs => if decodableMembers kvs then .ok (cur ++ kvs) else .error .unmarshalTypeError
  | _ => .error .unmarshalTypeError

/-- Decoding the elements of an array into the elements of a slice, one by one,
each into what the backing array holds at its index. -/
def decodeSections : List Object → List JSON → Except GoError (List Object)
  | _, [] => .ok []
  | backing, v :: vs =>
    match decodeSection (backing.headD []) v with
    | .error e => .error e
    | .ok s =>
      match decodeSections backing.tail vs with
      | .error e => .error e
      | .ok ss => .ok (s :: ss)

/-- A slice of sections: the elements of its backing array that have been
written, and its length. -/
structure SectionSlice where
  backing : List Object
  len : Nat

/-- The elements of the slice. -/
def SectionSlice.elems (s : SectionSlice) : List Object :=
  s.backing.take s.len

/-- Decoding a value into the field `Contents []map[string]interface{}`. -/
def decodeSlice (cur : SectionSlice) : JSON → Except GoError SectionSlice
  | .null => .ok ⟨[], 0⟩
  | .arr [] => .ok ⟨[], 0⟩
  | .arr (v :: vs) =>
    match decodeSections cur.backing (v :: vs) with
    | .error e => .error e
    | .ok ss => .ok ⟨ss ++ cur.backing.drop ss.length, ss.length⟩
  | _ => .error .unmarshalTypeError

/-- Decoding the members of an object into a struct whose one field is tagged
`name`: members are taken in order, those that select the field are decoded
into it by `field`, the others are skipped. -/
def decodeMembers (name : String)
    (field : SectionSlice → JSON → Except GoError SectionSlice) :
    SectionSlice → List (String × JSON) → Except GoError SectionSlice
  | cur, [] => .ok cur
  | cur, (k, v) :: kvs =>
    if fieldMatches name k then
      match field cur v with
      | .error e => .error e
      | .ok cur' => decodeMembers name field cur' kvs
    else decodeMembers name field cur kvs

/-- Decoding a value into a struct whose one field is tagged `name`; `cur` is
what the field holds. -/
def decodeStruct (name : String)
    (field : SectionSlice → JSON → Except GoError SectionSlice)
    (cur : SectionSlice) : JSON → Except GoError SectionSlice
  | .null => .ok cur
  | .obj kvs => decodeMembers name field cur kvs
  | _ => .error .unmarshalTypeError

/-- The tags of the nested structs of `contents` (lines 18-26), outermost first;
the last is the tag of the slice field. -/
def wrapperPath : List String :=
  ["twoColumnSearchResultsRenderer", "primaryContents", "sectionListRenderer", "contents"]

/-- Decoding a value into a struct nested as `names` tells, the innermost field
being the slice of sections. -/
def decodePath : List String → SectionSlice → JSON → Except GoError SectionSlice
  | [] => decodeSlice
  | name :: names => decodeStruct name (decodePath names)

/-- Decoding a value into the struct `contents` (lines 18-26). -/
def decodeContents : SectionSlice → JSON → Except GoError SectionSlice :=
  decodePath wrapperPath

/-- Second step of `parseResponse`: `json.Unmarshal(data["contents"], &yt.Contents)`
for a zero `yt`; the result is the slice
`yt.Contents.TwoColumnSearchResultsRenderer.PrimaryContents.SectionListRenderer.Contents`.
A key that is absent from `data` gives the empty raw message, which is not a
JSON text. -/
def unmarshalContents : Option JSON → Except GoError (List Object)
  | none => .error .syntaxError
  | some v =>
    match decodeContents ⟨[], 0⟩ v with
    | .error e => .error e
    | .ok s => .ok s.elems

/-! ## The Record Extractor -/

/-- Structure of a youtube video search result. -/
structure VideoData where
  ID : String
  Thumbnails : List String
  Title : String
  LongDesc : String
  Channel : String
  Duration : String
  Views : String
  PublishTime : String
  URLSuffix : String
  deriving DecidableEq

/-- The function `getTextFromRuns` (lines 212-225); `none` is a panic. -/
def getTextFromRuns (data : Object) : Option String :=
  match lookup "runs" data with
  | some runs =>
    match asSlice runs with
    | none => none
    | some [] => some ""
    | some (t :: _) =>
      match asMap t with
      | none => none
      | some t =>
        match lookup "text" t with
        | some text => asString text
        | none => some ""
  | none => some ""

/-- The function `getSimpleText` (lines 227-233); `none` is a panic. -/
def getSimpleText (data : Object) : Option String :=
  match lookup "simpleText" data with
  | some simpleText => asString simpleText
  | none => some ""

/-- The loop over `thumbnails` in `parseItem` (lines 153-159), started with
`videoData.Thumbnails` equal to `acc`. -/
def thumbnailUrls : List JSON → List String → Option (List String)
  | [], acc => some acc
  | thumb :: rest, acc =>
    match asMap thumb with
    | none => none
    | some thumb =>
      match lookup "url" thumb with
      | some url =>
        match asString url with
        | none => none
        | some url => thumbnailUrls rest (acc ++ [url])
      | none => thumbnailUrls rest acc

/-- The blocks of `parseItem` for `title` (lines 163-166), `descriptionSnippet`
(lines 168-171) and `longBylineText` (lines 173-176): the text of the first run
of the value under the key `k`. -/
def runsField (k : String) (item : Object) : Option String :=
  match lookup k item with
  | some title => (asMap title).bind getTextFromRuns
  | none => some ""

/-- The blocks of `parseItem` for `lengthText` (lines 178-181), `viewCountText`
(lines 183-186) and `publishedTimeText` (lines 188-191): the simple text of the
value under the key `k`. -/
def simpleTextField (k : String) (item : Object) : Option String :=
  match lookup k item with
  | some lengthText => (asMap lengthText).bind getSimpleText
  | none => some ""

/-- The block of `parseItem` for `videoId` (lines 142-145). -/
def idField (item : Object) : Option String :=
  match lookup "videoId" item with
  | some id => asString id
  | none => some ""

/-- The block of `parseItem` for `thumbnail` (lines 147-161). -/
def thumbnailsField (item : Object) : Option (List String) :=
  match lookup "thumbnail" item with
  | some thumbnail =>
    match asMap thumbnail with
    | none => none
    | some thumbnail =>
      match lookup "thumbnails" thumbnail with
      | some thumbnails =>
        match asSlice thumbnails with
        | none => none
        | some thumbnails => thumbnailUrls thumbnails []
      | none => some []
  | none => some []

/-- The block of `parseItem` for `navigationEndpoint` (lines 193-208). -/
def urlSuffixField (item : Object) : Option String :=
  match lookup "navigationEndpoint" item with
  | some navigationEndpoint =>
    match asMap navigationEndpoint with
    | none => none
    | some navigationEndpoint =>
      match lookup "commandMetadata" navigationEndpoint with
      | some commandMetadata =>
        match asMap commandMetadata with
        | none => none
        | some commandMetadata =>
          match lookup "webCommandMetadata" commandMetadata with
          | some webCommandMetadata =>
            match asMap webCommandMetadata with
            | none => none
            | some webCommandMetadata =>
              match lookup "url" webCommandMetadata with
              | some url => asString url
              | none => some ""
          | none => some ""
      | none => some ""
  | none => some ""

/-- The function `parseItem` (lines 140-210); `none` is a panic.  Each block of
the source assigns one field of `videoData`: the blocks are taken in the order
of the source, and a panic in one of them ends the function. -/
def parseItem (item : Object) : Option VideoData := do
  let ID ← idField item
  let Thumbnails ← thumbnailsField item
  let Title ← runsField "title" item
  let LongDesc ← runsField "descriptionSnippet" item
  let Channel ← runsField "longBylineText" item
  let Duration ← simpleTextField "lengthText" item
  let Views ← simpleTextField "viewCountText" item
  let PublishTime ← simpleTextField "publishedTimeText" item
  let URLSuffix ← urlSuffixField item
  pure { ID, Thumbnails, Title, LongDesc, Channel, Duration, Views, PublishTime, URLSuffix }

/-- The loop over the items of one section in `parseResponse` (lines 127-135),
started with `result`; `none` is a panic. -/
def parseItems : List JSON → List VideoData → Option (List VideoData)
  | [], result => some result
  | item :: rest, result =>
    match asMap item with
    | none => none
    | some item =>
      match lookup "videoRenderer" item with
      | none => parseItems rest result
      | some v =>
        match (asMap v).bind parseItem with
        | none => none
        | some videoData => parseItems rest (result ++ [videoData])

/-- The loop over the sections in `parseResponse` (lines 120-136), started with
`result`; `none` is a panic. -/
def parseSections : List Object → List VideoData → Option (List VideoData)
  | [], result => some result
  | content :: rest, result =>
    match lookup "itemSectionRenderer" content with
    | none => parseSections rest result
    | some c =>
      match asMap c with
      | none => none
      | some itemSectionRenderer =>
        match (lookup "contents" itemSectionRenderer).bind asSlice with
        | none => none
        | some contents =>
          match parseItems contents result with
          | none => none
          | some result' => parseSections rest result'

/-- The function `parseResponse` (lines 108-138). -/
def parseResponse (response : Bytes) : Result (List VideoData) :=
  match unmarshalRawMap response with
  | .error e => .err e
  | .ok data =>
    match unmarshalContents (lookup "contents" data) with
    | .error e => .err e
    | .ok sections =>
      match parseSections sections [] with
      | none => .panic
      | some result => .ok result

/-! ## `Search` -/

/-- Whether `url.QueryEscape` escapes the byte: it keeps letters, digits and
`-`, `_`, `.`, `~`. -/
def shouldEscape (c : Nat) : Bool :=
  !((0x61 ≤ c && c ≤ 0x7A) || (0x41 ≤ c && c ≤ 0x5A) || isDigit c
    || c == 0x2D || c == 0x5F || c == 0x2E || c == 0x7E)

/-- An upper-case hexadecimal digit. -/
def upperHex (n : Nat) : Nat :=
  if n < 10 then 0x30 + n else 0x41 + (n - 10)

/-- Go `url.QueryEscape`: a space becomes `+`, an escaped byte `%XX`. -/
def queryEscape : Bytes → Bytes
  | [] => []
  | c :: cs =>
    (if c == 0x20 then [0x2B]
     else if shouldEscape c then [0x25, upperHex (c / 16), upperHex (c % 16)]
     else [c]) ++ queryEscape cs

/-- The URL `Search` requests (lines 49-53). -/
def searchURL (query : Bytes) : Bytes :=
  utf8 "https://youtube.com" ++ utf8 "/results?" ++ utf8 "search_query=" ++ queryEscape query

/-- Lines 72-79 of `Search`: what it does with the result of `search`. -/
def Search.finish (fetched : Result Bytes) : Result (List VideoData) :=
  match fetched with
  | .err e => .err e
  | .panic => .panic
  | .ok res =>
    match parseResponse res with
    | .err e => .err e
    | .panic => .panic
    | .ok results => .ok results

/-- The function `Search` (lines 47-80).  `http.NewRequest` and the fetch step
`search` are given; `timerFirst` tells which case of the `select` is taken when
the request runs against a timer: `true` when `time.After(timeout)` fires
before `done` is signalled. -/
def Search {Request : Type} (newRequest : Bytes → Result Request)
    (search : Request → Result Bytes) (timerFirst : Bool)
    (query : Bytes) (timeout : Int) : Result (List VideoData) :=
  match newRequest (searchURL query) with
  | .err e => .err e
  | .panic => .panic
  | .ok req =>
    if timeout > 0 then
      if timerFirst then .err .timeout
      else Search.finish (search req)
    else Search.finish (search req)

/-! ## Inputs and shapes used in the statements -/

/-- The Blob Locator followed by `parseResponse`, as `Search` chains them for a
response body that holds the marker (line 103, then line 75). -/
def locateAndParse (body : Bytes) : Option (Result (List VideoData)) :=
  match blobLocator body with
  | .retry => none
  | .ret blob => some (parseResponse blob)
  | .panic => some .panic

/-- The JSON object of the synthetic page. -/
def syntheticObject : String :=
  "\x7b\"contents\":\x7b\"twoColumnSearchResultsRenderer\":\x7b\"primaryContents\":\x7b\"sectionListRenderer\":\x7b\"contents\":[\x7b\"itemSectionRenderer\":\x7b\"contents\":[\x7b\"videoRenderer\":\x7b\"videoId\":\"abc123\",\"title\":\x7b\"runs\":[\x7b\"text\":\"Hello\"\x7d]\x7d\x7d\x7d]\x7d\x7d]\x7d\x7d\x7d\x7d\x7d"

/-- The synthetic page: the marker, `=`, the object, `;`. -/
def syntheticPage : Bytes :=
  utf8 "ytInitialData=" ++ utf8 syntheticObject ++ utf8 ";"

/-- The synthetic page with three bytes between the marker and the object, as
in `var ytInitialData = {...};`. -/
def spacedPage : Bytes :=
  utf8 "ytInitialData = " ++ utf8 syntheticObject ++ utf8 ";"

/-- The record of the synthetic page. -/
def helloRecord : VideoData :=
  { ID := "abc123", Thumbnails := [], Title := "Hello", LongDesc := "", Channel := "",
    Duration := "", Views := "", PublishTime := "", URLSuffix := "" }

/-- A page cut short after the opening brace of the object. -/
def truncatedPage : Bytes := utf8 "ytInitialData = \x7b"

/-- The value lacks the path `names`: following the keys that select the
fields, every branch ends at a `null` or at an object without the next key. -/
inductive LacksPath : List String → JSON → Prop where
  | null (name : String) (names : List String) : LacksPath (name :: names) .null
  | obj (name : String) (names : List String) (kvs : List (String × JSON))
      (h : ∀ k w, (k, w) ∈ kvs → fieldMatches name k = true → LacksPath names w) :
      LacksPath (name :: names) (.obj kvs)

/-- The value is a string. -/
def IsString (v : JSON) : Prop := ∃ s, v = .str s

/-- The value under the key `k`, when the key is present, satisfies `P`. -/
def WhenPresent (k : String) (m : Object) (P : JSON → Prop) : Prop :=
  ∀ v, lookup k m = some v → P v

/-- The shape `getTextFromRuns` expects of a value such as the one under `title`:
a mapping whose `runs`, when present, is a sequence that is empty or starts
with a mapping whose `text`, when present, is a string. -/
def RunsShape (v : JSON) : Prop :=
  ∃ d, v = .obj d ∧ WhenPresent "runs" d fun r =>
    ∃ xs, r = .arr xs ∧ ∀ t rest, xs = t :: rest →
      ∃ tm, t = .obj tm ∧ WhenPresent "text" tm IsString

/-- The shape `getSimpleText` expects of a value such as the one under
`lengthText`: a mapping whose `simpleText`, when present, is a string. -/
def SimpleTextShape (v : JSON) : Prop :=
  ∃ d, v = .obj d ∧ WhenPresent "simpleText" d IsString

/-- The shape expected under `thumbnail`: a mapping whose `thumbnails`, when
present, is a sequence of mappings whose `url`, when present, is a string. -/
def ThumbnailShape (v : JSON) : Prop :=
  ∃ d, v = .obj d ∧ WhenPresent "thumbnails" d fun ts =>
    ∃ xs, ts = .arr xs ∧ ∀ t, t ∈ xs → ∃ tm, t = .obj tm ∧ WhenPresent "url" tm IsString

/-- The shape expected under `navigationEndpoint`: each present link of the
chain `commandMetadata`, `webCommandMetadata` is a mapping, and the `url` at its
end, when present, is a string. -/
def EndpointShape (v : JSON) : Prop :=
  ∃ d, v = .obj d ∧ WhenPresent "commandMetadata" d fun c =>
    ∃ cm, c = .obj cm ∧ WhenPresent "webCommandMetadata" cm fun w =>
      ∃ wm, w = .obj wm ∧ WhenPresent "url" wm IsString

/-- Every value `parseItem` reads in the mapping has the shape it expects. -/
def ExpectedShapes (item : Object) : Prop :=
  WhenPresent "videoId" item IsString
    ∧ WhenPresent "thumbnail" item ThumbnailShape
    ∧ WhenPresent "title" item RunsShape
    ∧ WhenPresent "descriptionSnippet" item RunsShape
    ∧ WhenPresent "longBylineText" item RunsShape
    ∧ WhenPresent "lengthText" item SimpleTextShape
    ∧ WhenPresent "viewCountText" item SimpleTextShape
    ∧ WhenPresent "publishedTimeText" item SimpleTextShape
    ∧ WhenPresent "navigationEndpoint" item EndpointShape

/-- The values under `videoRenderer` of the items of one section's sequence, in
item order. -/
def itemRenderers (items : List JSON) : List JSON :=
  items.filterMap fun item =>
    match item with
    | .obj m => lookup "videoRenderer" m
    | _ => none

/-- The values under `videoRenderer` in a section sequence, in section order and
then item order: a section without `itemSectionRenderer` and an item without
`videoRenderer` contribute nothing. -/
def videoRenderers (sections : List Object) : List JSON :=
  sections.flatMap fun content =>
    match lookup "itemSectionRenderer" content with
    | some (.obj itemSectionRenderer) =>
      match lookup "contents" itemSectionRenderer with
      | some (.arr contents) => itemRenderers contents
      | _ => []
    | _ => []

/-- The concatenation of `parseItem` applied to each value in turn (line 133);
`none` when one of the applications panics. -/
def recordsOf : List JSON → Option (List VideoData)
  | [] => some []
  | v :: vs =>
    ((asMap v).bind parseItem).bind fun r => (recordsOf vs).map (r :: ·)

/-- Every `itemSectionRenderer` value of the section sequence is a mapping with
a `contents` sequence of mappings. -/
def SectionsShaped (sections : List Object) : Prop :=
  ∀ content, content ∈ sections → ∀ c, lookup "itemSectionRenderer" content = some c →
    ∃ isr items, c = .obj isr ∧ lookup "contents" isr = some (.arr items)
      ∧ ∀ item, item ∈ items → ∃ m, item = .obj m

/-- No item of the section sequence has a `videoRenderer` key. -/
def NoVideoItem (sections : List Object) : Prop :=
  ∀ content, content ∈ sections → ∀ c, lookup "itemSectionRenderer" content = some c →
    ∃ isr items, c = .obj isr ∧ lookup "contents" isr = some (.arr items)
      ∧ ∀ item, item ∈ items → ∃ m, item = .obj m ∧ lookup "videoRenderer" m = none

/-- A response whose two sections hold no video: a channel card and a shelf. -/
def noVideoObject : Bytes :=
  utf8 "\x7b\"contents\":\x7b\"twoColumnSearchResultsRenderer\":\x7b\"primaryContents\":\x7b\"sectionListRenderer\":\x7b\"contents\":[\x7b\"itemSectionRenderer\":\x7b\"contents\":[\x7b\"channelRenderer\":\x7b\x7d\x7d]\x7d\x7d,\x7b\"shelfRenderer\":\x7b\x7d\x7d]\x7d\x7d\x7d\x7d\x7d"

/-- The sections of `noVideoObject`. -/
def noVideoSections : List Object :=
  [[("itemSectionRenderer", .obj [("contents", .arr [.obj [("channelRenderer", .obj [])]])])],
   [("shelfRenderer", .obj [])]]

/-- A response with three sections: a channel card followed by a video, a shelf,
and a video. -/
def mixedObject : Bytes :=
  utf8 "\x7b\"contents\":\x7b\"twoColumnSearchResultsRenderer\":\x7b\"primaryContents\":\x7b\"sectionListRenderer\":\x7b\"contents\":[\x7b\"itemSectionRenderer\":\x7b\"contents\":[\x7b\"channelRenderer\":\x7b\x7d\x7d,\x7b\"videoRenderer\":\x7b\"videoId\":\"a\"\x7d\x7d]\x7d\x7d,\x7b\"shelfRenderer\":\x7b\x7d\x7d,\x7b\"itemSectionRenderer\":\x7b\"contents\":[\x7b\"videoRenderer\":\x7b\"videoId\":\"b\"\x7d\x7d]\x7d\x7d]\x7d\x7d\x7d\x7d\x7d"

/-- The sections of `mixedObject`. -/
def mixedSections : List Object :=
  [[("itemSectionRenderer", .obj [("contents", .arr
      [.obj [("channelRenderer", .obj [])],
       .obj [("videoRenderer", .obj [("videoId", .str "a")])]])])],
   [("shelfRenderer", .obj [])],
   [("itemSectionRenderer", .obj [("contents", .arr
      [.obj [("videoRenderer", .obj [("videoId", .str "b")])]])])]]

/-- The record of a video that has only the identifier `id`. -/
def bareRecord (id : String) : VideoData :=
  { ID := id, Thumbnails := [], Title := "", LongDesc := "", Channel := "",
    Duration := "", Views := "", PublishTime := "", URLSuffix := "" }

/-! ## The retry loop of `search` (lines 83-106) -/

/-- What one round of the loop of `search` gets from the network: the outcome of
`http.DefaultClient.Do(request)` and, for a response, of `io.ReadAll(res.Body)`. -/
inductive Response where
  /-- `Do` returned the error `e`. -/
  | failed (e : GoError)
  /-- `Do` returned a response with the status code `status`; `body` is what
  `io.ReadAll` gives on its body: the bytes, or an error. -/
  | reply (status : Int) (body : Except GoError Bytes)

/-- The constant `http.StatusOK`. -/
def statusOK : Int := 200

/-- One round of the loop of `search` (lines 86-104) on the response it got:
`none` when the round ends without a `return`, so that the loop goes round
again. -/
def searchRound : Response → Option (Result Bytes)
  | .failed e => some (.err e)
  | .reply status body =>
    if status ≠ statusOK then some (.err (.statusCode status))
    else
      match body with
      | .error e => some (.err e)
      | .ok resBody =>
        match blobLocator resBody with
        | .retry => none
        | .ret blob => some (.ok blob)
        | .panic => some .panic

/-- The loop of `search` from its round number `i`, for at most `fuel` rounds.
`client i req` is the response to the `i`-th call of `Do`, made with the
request `req`.  The result holds the requests the rounds have passed to `Do`,
in order, and what `search` returned: `none` when it has not returned within
these rounds. -/
def searchFrom {Request : Type} (client : Nat → Request → Response) (request : Request) :
    Nat → Nat → List Request × Option (Result Bytes)
  | _, 0 => ([], none)
  | i, fuel + 1 =>
    match searchRound (client i request) with
    | some r => ([request], some r)
    | none =>
      let rest := searchFrom client request (i + 1) fuel
      (request :: rest.1, rest.2)

/-- The function `search` (lines 83-106), run for at most `fuel` rounds of its
loop. -/
def search {Request : Type} (client : Nat → Request → Response) (request : Request)
    (fuel : Nat) : List Request × Option (Result Bytes) :=
  searchFrom client request 0 fuel

/-- A response that makes `search` go round again: the status is 200, the body
was read, and the marker does not occur in it. -/
def MarkerAbsent (r : Response) : Prop :=
  ∃ body, r = .reply statusOK (.ok body) ∧ ∀ q, ¬ OccursAt dataBytes body q

/-! ## Further inputs and shapes used in the statements -/

/-- The assignment `m[k] = v`. -/
def assign (k : String) (v : JSON) (m : Object) : Object :=
  m ++ [(k, v)]

/-- The nine keys `parseItem` reads in a `videoRenderer` mapping. -/
def itemKeys : List String :=
  ["videoId", "thumbnail", "title", "descriptionSnippet", "longBylineText",
   "lengthText", "viewCountText", "publishedTimeText", "navigationEndpoint"]

/-- The string under `url` in an element of `thumbnails`, if the element is a
mapping that has one. -/
def thumbnailUrl : JSON → Option String
  | .obj thumb =>
    match lookup "url" thumb with
    | some (.str url) => some url
    | _ => none
  | _ => none

/-- Whether an element of `thumbnails` is a mapping with a `url` key. -/
def HasUrl (thumb : JSON) : Prop :=
  ∃ m v, thumb = .obj m ∧ lookup "url" m = some v

/-- Below the fixed path every value has the type the loops of `parseResponse`
assert: an `itemSectionRenderer` value is a mapping, its `contents`, when
present, is a sequence of mappings, and a `videoRenderer` value is a mapping on
which `parseItem` returns. -/
def TypesAsserted (sections : List Object) : Prop :=
  ∀ content, content ∈ sections → ∀ c, lookup "itemSectionRenderer" content = some c →
    ∃ isr, c = .obj isr ∧ ∀ cv, lookup "contents" isr = some cv →
      ∃ items, cv = .arr items ∧ ∀ item, item ∈ items →
        ∃ m, item = .obj m ∧ ∀ v, lookup "videoRenderer" m = some v →
          ∃ r, (asMap v).bind parseItem = some r

/-- Every `itemSectionRenderer` mapping of the section sequence has a `contents`
key. -/
def ContentsPresent (sections : List Object) : Prop :=
  ∀ content, content ∈ sections → ∀ isr,
    lookup "itemSectionRenderer" content = some (.obj isr) → ∃ cv, lookup "contents" isr = some cv

/-- A response whose one section has a number under `itemSectionRenderer`. -/
def oddSectionObject : Bytes :=
  utf8 "\x7b\"contents\":\x7b\"twoColumnSearchResultsRenderer\":\x7b\"primaryContents\":\x7b\"sectionListRenderer\":\x7b\"contents\":[\x7b\"itemSectionRenderer\":5\x7d]\x7d\x7d\x7d\x7d\x7d"

/-- A page whose blob holds the closing sequence inside a string. -/
def innerClosingPage : Bytes :=
  utf8 "var ytInitialData = \x7b\"a\":\"\x7d;\"\x7d;"

/-- A client whose first two responses lack the marker and whose third is the
page with the three separator bytes. -/
def slowClient : Nat → Bytes → Response :=
  fun i _ =>
    if i < 2 then .reply 200 (.ok (utf8 "<html></html>")) else .reply 200 (.ok spacedPage)

/-- A client whose first response lacks the marker and whose second has the
status 503, with a body that holds the marker. -/
def refusingClient : Nat → Bytes → Response :=
  fun i _ =>
    if i < 1 then .reply 200 (.ok (utf8 "<html></html>")) else .reply 503 (.ok spacedPage)

theorem startsWith_iff (s sep : Bytes) :
    startsWith s sep = true ↔ ∃ post, s = sep ++ post := by
  induction sep generalizing s with
  | nil => cases s <;> simp [startsWith]
  | cons y ys ih =>
    cases s with
    | nil => simp [startsWith]
    | cons x xs =>
      simp only [startsWith, Bool.and_eq_true, beq_iff_eq, ih, List.cons_append, List.cons.injEq]
      constructor
      · rintro ⟨rfl, post, rfl⟩
        exact ⟨post, rfl, rfl⟩
      · rintro ⟨post, rfl, rfl⟩
        exact ⟨rfl, post, rfl⟩

theorem occursAt_zero (sep s : Bytes) :
    OccursAt sep s 0 ↔ startsWith s sep = true := by
  rw [startsWith_iff]
  constructor
  · rintro ⟨pre, post, rfl, hp⟩
    have : pre = [] := List.length_eq_zero.mp hp
    subst this
    exact ⟨post, rfl⟩
  · rintro ⟨post, rfl⟩
    exact ⟨[], post, rfl, rfl⟩

theorem occursAt_succ (sep : Bytes) (x : Nat) (xs : Bytes) (q : Nat) :
    OccursAt sep (x :: xs) (q + 1) ↔ OccursAt sep xs q := by
  constructor
  · rintro ⟨pre, post, h, hp⟩
    cases pre with
    | nil => simp at hp
    | cons a pre =>
      simp only [List.cons_append, List.cons.injEq] at h
      exact ⟨pre, post, h.2, by simpa using hp⟩
  · rintro ⟨pre, post, rfl, hp⟩
    exact ⟨x :: pre, post, rfl, by simp [hp]⟩

theorem occursAt_nil (sep : Bytes) (q : Nat) :
    OccursAt sep [] q ↔ q = 0 ∧ sep = [] := by
  constructor
  · rintro ⟨pre, post, h, hp⟩
    have h1 := congrArg List.length h
    simp only [List.length_nil, List.length_append] at h1
    have hpre : pre = [] := List.length_eq_zero.mp (by omega)
    subst hpre
    exact ⟨by simpa using hp.symm, List.length_eq_zero.mp (by omega)⟩
  · rintro ⟨rfl, rfl⟩
    exact ⟨[], [], rfl, rfl⟩

theorem findIndex_eq_none (sep s : Bytes) :
    findIndex sep s = none ↔ ∀ q, ¬ OccursAt sep s q := by
  induction s with
  | nil =>
    cases sep with
    | nil =>
      simp only [findIndex, startsWith, if_true]
      constructor
      · intro h; cases h
      · intro h; exact absurd ((occursAt_nil [] 0).mpr ⟨rfl, rfl⟩) (h 0)
    | cons y ys =>
      simp only [findIndex, startsWith]
      simp [occursAt_nil]
  | cons x xs ih =>
    unfold findIndex
    by_cases h0 : startsWith (x :: xs) sep = true
    · rw [if_pos h0]
      constructor
      · intro h; cases h
      · intro h; exact absurd ((occursAt_zero _ _).mpr h0) (h 0)
    · rw [if_neg h0, Option.map_eq_none', ih]
      constructor
      · intro h q
        cases q with
        | zero => rw [occursAt_zero]; exact h0
        | succ q => rw [occursAt_succ]; exact h q
      · intro h q
        rw [← occursAt_succ sep x xs q]
        exact h _

theorem findIndex_eq_some (sep s : Bytes) (p : Nat) :
    findIndex sep s = some p ↔ FirstAt sep s p := by
  induction s generalizing p with
  | nil =>
    unfold findIndex FirstAt
    cases sep with
    | nil =>
      simp only [startsWith, if_true, Option.some.injEq, occursAt_nil]
      constructor
      · rintro rfl
        exact ⟨by simp, fun q hq => absurd hq (Nat.not_lt_zero q)⟩
      · rintro ⟨⟨h, _⟩, _⟩; exact h.symm
    | cons y ys =>
      simp [startsWith, occursAt_nil]
  | cons x xs ih =>
    unfold findIndex FirstAt
    by_cases h0 : startsWith (x :: xs) sep = true
    · rw [if_pos h0, Option.some.injEq]
      constructor
      · rintro rfl
        exact ⟨(occursAt_zero _ _).mpr h0, fun q hq => absurd hq (Nat.not_lt_zero q)⟩
      · rintro ⟨_, hmin⟩
        by_contra hne
        exact hmin 0 (Nat.pos_of_ne_zero (Ne.symm hne)) ((occursAt_zero _ _).mpr h0)
    · rw [if_neg h0, Option.map_eq_some']
      constructor
      · rintro ⟨a, ha, rfl⟩
        have := (ih a).mp ha
        refine ⟨(occursAt_succ _ _ _ _).mpr this.1, ?_⟩
        intro q hq
        cases q with
        | zero => rw [occursAt_zero]; exact h0
        | succ q => rw [occursAt_succ]; exact this.2 q (by omega)
      · rintro ⟨hocc, hmin⟩
        cases p with
        | zero => exact absurd ((occursAt_zero _ _).mp hocc) h0
        | succ a =>
          refine ⟨a, (ih a).mpr ⟨(occursAt_succ _ _ _ _).mp hocc, ?_⟩, rfl⟩
          intro q hq
          rw [← occursAt_succ sep x xs q]
          exact hmin _ (by omega)

theorem occursAt_length_le {sep s : Bytes} {p : Nat} (h : OccursAt sep s p) :
    p + sep.length ≤ s.length := by
  obtain ⟨pre, post, rfl, rfl⟩ := h
  simp only [List.length_append]
  omega


theorem bytesIndex_of_firstAt {sep s : Bytes} {p : Nat} (h : FirstAt sep s p) :
    bytesIndex s sep = (p : Int) := by
  unfold bytesIndex
  rw [(findIndex_eq_some sep s p).mpr h]

theorem bytesIndex_of_absent {sep s : Bytes} (h : ∀ q, ¬ OccursAt sep s q) :
    bytesIndex s sep = -1 := by
  unfold bytesIndex
  rw [(findIndex_eq_none sep s).mpr h]

theorem dataBytes_length : dataBytes.length = 13 := by decide

theorem closing_length : closing.length = 2 := by decide

/-- C2: when the marker first occurs at offset `p`, at least three bytes follow
it, and the closing sequence first occurs in `b[p+16:]` at relative offset `e`,
the Blob Locator returns exactly `b[p+16 : p+16+e+1]` with a nil error. -/
theorem blobLocator_returns_slice (b : Bytes) (p e : Nat)
    (hp : FirstAt dataBytes b p)
    (h3 : p + dataBytes.length + 3 ≤ b.length)
    (he : FirstAt closing (b.drop (p + 16)) e) :
    blobLocator b = .ret ((b.take (p + 16 + e + 1)).drop (p + 16)) := by
  have hlen := occursAt_length_le he.1
  rw [closing_length, List.length_drop] at hlen
  rw [dataBytes_length] at h3
  unfold blobLocator
  simp only [bytesIndex_of_firstAt hp, dataBytes_length]
  have hpos : ((p : Int) > -1) := by omega
  rw [if_pos hpos]
  have hs : sliceFrom b ((p : Int) + ((13 : Nat) : Int) + 3) = some (b.drop (p + 16)) := by
    unfold sliceFrom
    have h1 : (p : Int) + ((13 : Nat) : Int) + 3 = ((p + 16 : Nat) : Int) := by push_cast; ring
    rw [h1, if_pos ⟨by omega, by omega⟩, Int.toNat_ofNat]
  rw [hs]
  simp only [bytesIndex_of_firstAt he]
  have ht : sliceTo (b.drop (p + 16)) ((e : Int) + 1) = some ((b.drop (p + 16)).take (e + 1)) := by
    unfold sliceTo
    have h1 : (e : Int) + 1 = ((e + 1 : Nat) : Int) := by push_cast; ring
    rw [h1, if_pos ⟨by omega, by rw [List.length_drop]; omega⟩, Int.toNat_ofNat]
  rw [ht]
  have h2 : p + 16 + e + 1 - (p + 16) = e + 1 := by omega
  rw [List.drop_take, h2]

/-- C2 (witness): the locator on a page whose marker starts at offset 4. -/
theorem blobLocator_returns_slice_witness :
    blobLocator (utf8 "var ytInitialData = \x7b\"a\":1\x7d;x") = .ret (utf8 "\x7b\"a\":1\x7d") := by
  have h := blobLocator_returns_slice (utf8 "var ytInitialData = \x7b\"a\":1\x7d;x") 4 6
    ((findIndex_eq_some _ _ _).mp (by decide)) (by decide)
    ((findIndex_eq_some _ _ _).mp (by decide))
  rw [h]
  decide


/-- C1 (counterexample): on the synthetic page of the specification the locator
skips the marker and three bytes, so the slice starts at `contents":` and
`parseResponse` rejects it. -/
theorem syntheticPage_rejected :
    locateAndParse syntheticPage = some (.err .syntaxError) := by
  decide

/-- C1 (amended): with three separator bytes between the marker and the object,
the locator followed by `parseResponse` yields exactly one record, with ID
`abc123`, Title `Hello` and every other field empty. -/
theorem spacedPage_round_trip :
    locateAndParse spacedPage = some (.ok [helloRecord]) := by
  decide

/-- C3 (counterexample): the page holds the marker and no closing sequence after
the skip point, and the locator returns the empty slice with a nil error. -/
theorem truncatedPage_no_error :
    OccursAt dataBytes truncatedPage 0
      ∧ (∀ q, ¬ OccursAt closing (truncatedPage.drop 16) q)
      ∧ blobLocator truncatedPage = .ret [] := by
  refine ⟨(occursAt_zero _ _).mpr (by decide), (findIndex_eq_none _ _).mp (by decide), by decide⟩

/-- C3 (amended): when at least three bytes follow the first marker and the
closing sequence never occurs after the skip point, the locator returns the
empty slice with a nil error; the failure comes afterwards, from
`parseResponse`, which rejects the empty slice. -/
theorem blobLocator_unterminated (b : Bytes) (p : Nat)
    (hp : FirstAt dataBytes b p)
    (h3 : p + dataBytes.length + 3 ≤ b.length)
    (he : ∀ q, ¬ OccursAt closing (b.drop (p + 16)) q) :
    blobLocator b = .ret [] ∧ parseResponse [] = .err .syntaxError := by
  refine ⟨?_, by decide⟩
  rw [dataBytes_length] at h3
  unfold blobLocator
  simp only [bytesIndex_of_firstAt hp, dataBytes_length]
  have hpos : ((p : Int) > -1) := by omega
  rw [if_pos hpos]
  have hs : sliceFrom b ((p : Int) + ((13 : Nat) : Int) + 3) = some (b.drop (p + 16)) := by
    unfold sliceFrom
    have h1 : (p : Int) + ((13 : Nat) : Int) + 3 = ((p + 16 : Nat) : Int) := by push_cast; ring
    rw [h1, if_pos ⟨by omega, by omega⟩, Int.toNat_ofNat]
  rw [hs]
  simp only [bytesIndex_of_absent he]
  rfl

/-- C3 (witness): the truncated page. -/
theorem blobLocator_unterminated_witness :
    blobLocator truncatedPage = .ret [] ∧ parseResponse [] = .err .syntaxError :=
  blobLocator_unterminated truncatedPage 0
    ((findIndex_eq_some _ _ _).mp (by decide)) (by decide)
    ((findIndex_eq_none _ _).mp (by decide))


/-- C4: an input that is not the text of a JSON object, and a JSON object
without a top-level `contents` key, make `parseResponse` return a non-nil error
and no records. -/
theorem parseResponse_rejects_without_contents (b : Bytes)
    (h : (∀ kvs, parseJSON b ≠ some (.obj kvs)) ∨
      (∃ kvs, parseJSON b = some (.obj kvs) ∧ lookup "contents" kvs = none)) :
    ∃ e, parseResponse b = .err e := by
  unfold parseResponse unmarshalRawMap
  rcases h with h | ⟨kvs, hk, hc⟩
  · cases hj : parseJSON b with
    | none => exact ⟨_, rfl⟩
    | some v =>
      cases v with
      | obj kvs => exact absurd hj (h kvs)
      | null => exact ⟨_, rfl⟩
      | bool _ => exact ⟨_, rfl⟩
      | num _ => exact ⟨_, rfl⟩
      | str _ => exact ⟨_, rfl⟩
      | arr _ => exact ⟨_, rfl⟩
  · rw [hk]
    simp only [hc]
    exact ⟨_, rfl⟩

/-- C4 (witness): a text that is cut short, which is not a JSON object. -/
theorem parseResponse_rejects_without_contents_witness :
    ∃ e, parseResponse (utf8 "\x7b\"contents\":") = .err e :=
  parseResponse_rejects_without_contents (utf8 "\x7b\"contents\":")
    (Or.inl (fun kvs h => by
      have hn : parseJSON (utf8 "\x7b\"contents\":") = none := rfl
      rw [hn] at h
      cases h))

theorem decodeMembers_unchanged (name : String)
    (field : SectionSlice → JSON → Except GoError SectionSlice) (cur : SectionSlice)
    (kvs : List (String × JSON))
    (h : ∀ k w, (k, w) ∈ kvs → fieldMatches name k = true → field cur w = .ok cur) :
    decodeMembers name field cur kvs = .ok cur := by
  induction kvs with
  | nil => rfl
  | cons kv kvs ih =>
    obtain ⟨k, w⟩ := kv
    have ih' := ih (fun k' w' hm => h k' w' (List.mem_cons_of_mem _ hm))
    unfold decodeMembers
    by_cases hk : fieldMatches name k = true
    · rw [if_pos hk, h k w (List.mem_cons_self _ _) hk]
      exact ih'
    · rw [if_neg hk]
      exact ih'

theorem decodePath_lacksPath {names : List String} {v : JSON} (h : LacksPath names v) :
    ∀ cur, decodePath names cur v = .ok cur := by
  induction h with
  | null name names => intro cur; rfl
  | obj name names kvs _ ih =>
    intro cur
    show decodeMembers name (decodePath names) cur kvs = .ok cur
    exact decodeMembers_unchanged name _ cur kvs (fun k w hm hk => ih k w hm hk cur)

/-- C5 (counterexample): the `contents` value `{}` and the `contents` value
`null` hold no part of the wrapper path, and `parseResponse` returns the empty
result with a nil error. -/
theorem emptyContents_no_error :
    parseResponse (utf8 "\x7b\"contents\":\x7b\x7d\x7d") = .ok []
      ∧ parseResponse (utf8 "\x7b\"contents\":null\x7d") = .ok [] := by
  decide

/-- C5 (amended): for a JSON object whose `contents` value lacks the wrapper path
because a key of the path is missing or holds `null`, `parseResponse` returns
the empty result with a nil error; it returns a non-nil error when the
`contents` value is neither an object nor `null`. -/
theorem parseResponse_missing_wrapper (b : Bytes) (kvs : List (String × JSON)) (c : JSON)
    (hb : parseJSON b = some (.obj kvs)) (hc : lookup "contents" kvs = some c) :
    (LacksPath wrapperPath c → parseResponse b = .ok [])
      ∧ ((∀ m, c ≠ .obj m) → c ≠ .null → ∃ e, parseResponse b = .err e) := by
  unfold parseResponse unmarshalRawMap
  rw [hb]
  simp only [hc, unmarshalContents, decodeContents]
  constructor
  · intro h
    rw [decodePath_lacksPath h]
    rfl
  · intro hobj hnull
    cases c with
    | obj m => exact absurd rfl (hobj m)
    | null => exact absurd rfl hnull
    | bool _ => exact ⟨_, rfl⟩
    | num _ => exact ⟨_, rfl⟩
    | str _ => exact ⟨_, rfl⟩
    | arr _ => exact ⟨_, rfl⟩

/-- C5 (witness): an object whose `contents` lacks `primaryContents`. -/
theorem parseResponse_missing_wrapper_witness :
    parseResponse (utf8 "\x7b\"contents\":\x7b\"twoColumnSearchResultsRenderer\":\x7b\"x\":[1]\x7d\x7d\x7d") = .ok [] :=
  (parseResponse_missing_wrapper
    (utf8 "\x7b\"contents\":\x7b\"twoColumnSearchResultsRenderer\":\x7b\"x\":[1]\x7d\x7d\x7d")
    [("contents", .obj [("twoColumnSearchResultsRenderer",
      .obj [("x", .arr [.num ⟨false, 1, 0⟩])])])]
    (.obj [("twoColumnSearchResultsRenderer", .obj [("x", .arr [.num ⟨false, 1, 0⟩])])])
    rfl rfl).1
    (by
      refine LacksPath.obj _ _ _ (fun k w hm _ => ?_)
      simp only [List.mem_singleton, Prod.mk.injEq] at hm
      obtain ⟨_, rfl⟩ := hm
      refine LacksPath.obj _ _ _ (fun k w hm hk => ?_)
      simp only [List.mem_singleton, Prod.mk.injEq] at hm
      obtain ⟨rfl, rfl⟩ := hm
      exact absurd hk (by decide))


theorem parseItem_eq_fields (item : Object) :
    parseItem item =
      (idField item).bind fun ID =>
      (thumbnailsField item).bind fun Thumbnails =>
      (runsField "title" item).bind fun Title =>
      (runsField "descriptionSnippet" item).bind fun LongDesc =>
      (runsField "longBylineText" item).bind fun Channel =>
      (simpleTextField "lengthText" item).bind fun Duration =>
      (simpleTextField "viewCountText" item).bind fun Views =>
      (simpleTextField "publishedTimeText" item).bind fun PublishTime =>
      (urlSuffixField item).bind fun URLSuffix =>
      some { ID, Thumbnails, Title, LongDesc, Channel, Duration, Views, PublishTime, URLSuffix } :=
  rfl

theorem parseItem_eq_some (item : Object) (r : VideoData) :
    parseItem item = some r ↔
      idField item = some r.ID
        ∧ thumbnailsField item = some r.Thumbnails
        ∧ runsField "title" item = some r.Title
        ∧ runsField "descriptionSnippet" item = some r.LongDesc
        ∧ runsField "longBylineText" item = some r.Channel
        ∧ simpleTextField "lengthText" item = some r.Duration
        ∧ simpleTextField "viewCountText" item = some r.Views
        ∧ simpleTextField "publishedTimeText" item = some r.PublishTime
        ∧ urlSuffixField item = some r.URLSuffix := by
  rw [parseItem_eq_fields]
  simp only [Option.bind_eq_some, Option.some.injEq]
  constructor
  · rintro ⟨a1, h1, a2, h2, a3, h3, a4, h4, a5, h5, a6, h6, a7, h7, a8, h8, a9, h9, rfl⟩
    exact ⟨h1, h2, h3, h4, h5, h6, h7, h8, h9⟩
  · rintro ⟨h1, h2, h3, h4, h5, h6, h7, h8, h9⟩
    exact ⟨_, h1, _, h2, _, h3, _, h4, _, h5, _, h6, _, h7, _, h8, _, h9, rfl⟩

theorem parseItem_isSome (item : Object) :
    (∃ r, parseItem item = some r) ↔
      (∃ a, idField item = some a)
        ∧ (∃ a, thumbnailsField item = some a)
        ∧ (∃ a, runsField "title" item = some a)
        ∧ (∃ a, runsField "descriptionSnippet" item = some a)
        ∧ (∃ a, runsField "longBylineText" item = some a)
        ∧ (∃ a, simpleTextField "lengthText" item = some a)
        ∧ (∃ a, simpleTextField "viewCountText" item = some a)
        ∧ (∃ a, simpleTextField "publishedTimeText" item = some a)
        ∧ (∃ a, urlSuffixField item = some a) := by
  constructor
  · rintro ⟨r, hr⟩
    obtain ⟨h1, h2, h3, h4, h5, h6, h7, h8, h9⟩ := (parseItem_eq_some item r).mp hr
    exact ⟨⟨_, h1⟩, ⟨_, h2⟩, ⟨_, h3⟩, ⟨_, h4⟩, ⟨_, h5⟩, ⟨_, h6⟩, ⟨_, h7⟩, ⟨_, h8⟩, ⟨_, h9⟩⟩
  · rintro ⟨⟨a1, h1⟩, ⟨a2, h2⟩, ⟨a3, h3⟩, ⟨a4, h4⟩, ⟨a5, h5⟩, ⟨a6, h6⟩, ⟨a7, h7⟩, ⟨a8, h8⟩,
      ⟨a9, h9⟩⟩
    exact ⟨⟨a1, a2, a3, a4, a5, a6, a7, a8, a9⟩,
      (parseItem_eq_some item _).mpr ⟨h1, h2, h3, h4, h5, h6, h7, h8, h9⟩⟩

theorem asString_isSome (v : JSON) : (∃ s, asString v = some s) ↔ IsString v := by
  cases v <;> simp [asString, IsString]

theorem idField_isSome (item : Object) :
    (∃ a, idField item = some a) ↔ WhenPresent "videoId" item IsString := by
  unfold idField WhenPresent
  cases lookup "videoId" item with
  | none => simp
  | some v => simp [asString_isSome]

theorem getSimpleText_isSome (d : Object) :
    (∃ a, getSimpleText d = some a) ↔ WhenPresent "simpleText" d IsString := by
  unfold getSimpleText WhenPresent
  cases lookup "simpleText" d with
  | none => simp
  | some v => simp [asString_isSome]

theorem simpleTextField_isSome (k : String) (item : Object) :
    (∃ a, simpleTextField k item = some a) ↔ WhenPresent k item SimpleTextShape := by
  unfold simpleTextField WhenPresent SimpleTextShape
  cases lookup k item with
  | none => simp
  | some v =>
    cases v <;> simp [asMap, getSimpleText_isSome]

theorem getTextFromRuns_isSome (d : Object) :
    (∃ a, getTextFromRuns d = some a) ↔
      WhenPresent "runs" d fun r =>
        ∃ xs, r = .arr xs ∧ ∀ t rest, xs = t :: rest →
          ∃ tm, t = .obj tm ∧ WhenPresent "text" tm IsString := by
  unfold getTextFromRuns WhenPresent
  cases lookup "runs" d with
  | none => simp
  | some r =>
    cases r with
    | arr xs =>
      cases xs with
      | nil => simp [asSlice]
      | cons t rest =>
        cases t with
        | obj tm =>
          cases hl : lookup "text" tm with
          | none => simp [asSlice, asMap, hl]
          | some x => simp [asSlice, asMap, hl, asString_isSome]
        | _ => simp [asSlice, asMap]
    | _ => simp [asSlice]

theorem runsField_isSome (k : String) (item : Object) :
    (∃ a, runsField k item = some a) ↔ WhenPresent k item RunsShape := by
  unfold runsField WhenPresent RunsShape
  cases lookup k item with
  | none => simp
  | some v =>
    cases v <;> simp [asMap, getTextFromRuns_isSome]

theorem thumbnailUrls_isSome (xs : List JSON) (acc : List String) :
    (∃ a, thumbnailUrls xs acc = some a) ↔
      ∀ t, t ∈ xs → ∃ tm, t = .obj tm ∧ WhenPresent "url" tm IsString := by
  induction xs generalizing acc with
  | nil => simp [thumbnailUrls]
  | cons t rest ih =>
    unfold thumbnailUrls
    cases t with
    | obj tm =>
      cases hl : lookup "url" tm with
      | none => simp [asMap, hl, ih, WhenPresent]
      | some u =>
        cases u with
        | str s => simp [asMap, hl, ih, WhenPresent, asString, IsString]
        | _ => simp [asMap, hl, WhenPresent, asString, IsString]
    | _ => simp [asMap]

theorem thumbnailsField_isSome (item : Object) :
    (∃ a, thumbnailsField item = some a) ↔ WhenPresent "thumbnail" item ThumbnailShape := by
  unfold thumbnailsField WhenPresent ThumbnailShape
  cases lookup "thumbnail" item with
  | none => simp
  | some v =>
    cases v with
    | obj d =>
      cases hl : lookup "thumbnails" d with
      | none => simp [asMap, hl, WhenPresent]
      | some ts =>
        cases ts with
        | arr xs => simp [asMap, hl, WhenPresent, asSlice, thumbnailUrls_isSome]
        | _ => simp [asMap, hl, WhenPresent, asSlice]
    | _ => simp [asMap]

theorem urlSuffixField_isSome (item : Object) :
    (∃ a, urlSuffixField item = some a) ↔ WhenPresent "navigationEndpoint" item EndpointShape := by
  unfold urlSuffixField WhenPresent EndpointShape
  cases lookup "navigationEndpoint" item with
  | none => simp
  | some v =>
    cases v with
    | obj d =>
      cases hl : lookup "commandMetadata" d with
      | none => simp [asMap, hl, WhenPresent]
      | some c =>
        cases c with
        | obj cm =>
          cases hw : lookup "webCommandMetadata" cm with
          | none => simp [asMap, hl, hw, WhenPresent]
          | some w =>
            cases w with
            | obj wm =>
              cases hu : lookup "url" wm with
              | none => simp [asMap, hl, hw, hu, WhenPresent]
              | some u => simp [asMap, hl, hw, hu, WhenPresent, asString_isSome]
            | _ => simp [asMap, hl, hw, WhenPresent]
        | _ => simp [asMap, hl, WhenPresent]
    | _ => simp [asMap]

/-- C6 (counterexample): a `videoId` that is a number makes `parseItem` panic
instead of returning a record with an empty ID. -/
theorem parseItem_numeric_id_panics :
    parseItem [("videoId", .num ⟨false, 5, 0⟩)] = none := by
  decide

theorem parseItem_isSome_iff_shapes (item : Object) :
    (∃ r, parseItem item = some r) ↔ ExpectedShapes item := by
  rw [parseItem_isSome, idField_isSome, thumbnailsField_isSome, runsField_isSome,
    runsField_isSome, runsField_isSome, simpleTextField_isSome, simpleTextField_isSome,
    simpleTextField_isSome, urlSuffixField_isSome]
  rfl

theorem idField_absent {item : Object} {s : String} (h : idField item = some s)
    (hk : lookup "videoId" item = none) : s = "" := by
  unfold idField at h
  simp only [hk, Option.some.injEq] at h
  exact h.symm

theorem thumbnailsField_absent {item : Object} {l : List String}
    (h : thumbnailsField item = some l) (hk : lookup "thumbnail" item = none) : l = [] := by
  unfold thumbnailsField at h
  simp only [hk, Option.some.injEq] at h
  exact h.symm

theorem runsField_absent {k : String} {item : Object} {s : String}
    (h : runsField k item = some s) (hk : lookup k item = none) : s = "" := by
  unfold runsField at h
  simp only [hk, Option.some.injEq] at h
  exact h.symm

theorem simpleTextField_absent {k : String} {item : Object} {s : String}
    (h : simpleTextField k item = some s) (hk : lookup k item = none) : s = "" := by
  unfold simpleTextField at h
  simp only [hk, Option.some.injEq] at h
  exact h.symm

theorem urlSuffixField_absent {item : Object} {s : String}
    (h : urlSuffixField item = some s) (hk : lookup "navigationEndpoint" item = none) :
    s = "" := by
  unfold urlSuffixField at h
  simp only [hk, Option.some.injEq] at h
  exact h.symm

/-- C6 (amended): `parseItem` returns a record exactly when every value it reads
has the shape it expects, and a value of another shape makes it panic; in the
record it returns for a mapping of the expected shapes, each field whose key is
absent is at its zero value. -/
theorem parseItem_returns_iff_shapes (item : Object) :
    ((∃ r, parseItem item = some r) ↔ ExpectedShapes item)
      ∧ (¬ ExpectedShapes item → parseItem item = none)
      ∧ (ExpectedShapes item → ∃ r, parseItem item = some r
          ∧ (lookup "videoId" item = none → r.ID = "")
          ∧ (lookup "thumbnail" item = none → r.Thumbnails = [])
          ∧ (lookup "title" item = none → r.Title = "")
          ∧ (lookup "descriptionSnippet" item = none → r.LongDesc = "")
          ∧ (lookup "longBylineText" item = none → r.Channel = "")
          ∧ (lookup "lengthText" item = none → r.Duration = "")
          ∧ (lookup "viewCountText" item = none → r.Views = "")
          ∧ (lookup "publishedTimeText" item = none → r.PublishTime = "")
          ∧ (lookup "navigationEndpoint" item = none → r.URLSuffix = "")) := by
  refine ⟨parseItem_isSome_iff_shapes item, ?_, ?_⟩
  · intro hn
    cases hp : parseItem item with
    | none => rfl
    | some r => exact absurd ((parseItem_isSome_iff_shapes item).mp ⟨r, hp⟩) hn
  · intro hs
    obtain ⟨r, hr⟩ := (parseItem_isSome_iff_shapes item).mpr hs
    obtain ⟨h1, h2, h3, h4, h5, h6, h7, h8, h9⟩ := (parseItem_eq_some item r).mp hr
    exact ⟨r, hr, idField_absent h1, thumbnailsField_absent h2, runsField_absent h3,
      runsField_absent h4, runsField_absent h5, simpleTextField_absent h6,
      simpleTextField_absent h7, simpleTextField_absent h8, urlSuffixField_absent h9⟩

/-- C6 (witness): a mapping with a title and a view count and no other key; the
record is returned and its seven other fields are at their zero values. -/
theorem parseItem_returns_iff_shapes_witness :
    ∃ r, parseItem
        [("title", .obj [("runs", .arr [.obj [("text", .str "Hello")]])]),
         ("viewCountText", .obj [("simpleText", .str "12 views")])] = some r
      ∧ r.Title = "Hello" ∧ r.Views = "12 views"
      ∧ r.ID = "" ∧ r.Thumbnails = [] ∧ r.LongDesc = "" ∧ r.Channel = ""
      ∧ r.Duration = "" ∧ r.PublishTime = "" ∧ r.URLSuffix = "" := by
  obtain ⟨r, hr, h1, h2, _, h4, h5, h6, _, h8, h9⟩ :=
    (parseItem_returns_iff_shapes
      [("title", .obj [("runs", .arr [.obj [("text", .str "Hello")]])]),
       ("viewCountText", .obj [("simpleText", .str "12 views")])]).2.2
      ((parseItem_isSome_iff_shapes _).mp ⟨_, rfl⟩)
  have hv : r = ⟨"", [], "Hello", "", "", "", "12 views", "", ""⟩ := by
    have hd : parseItem
        [("title", .obj [("runs", .arr [.obj [("text", .str "Hello")]])]),
         ("viewCountText", .obj [("simpleText", .str "12 views")])]
        = some ⟨"", [], "Hello", "", "", "", "12 views", "", ""⟩ := by
      decide
    rw [hd] at hr
    exact (Option.some.inj hr).symm
  exact ⟨r, hr, by rw [hv], by rw [hv], h1 rfl, h2 rfl, h4 rfl, h5 rfl, h6 rfl, h8 rfl, h9 rfl⟩


theorem lookup_delete (k k' : String) (m : Object) :
    lookup k (delete k' m) = if k = k' then none else lookup k m := by
  induction m with
  | nil => simp [delete, lookup]
  | cons kv rest ih =>
    obtain ⟨a, v⟩ := kv
    unfold delete at ih ⊢
    by_cases ha : a = k'
    · subst ha
      rw [List.filter_cons_of_neg (by simp), ih]
      by_cases hk : k = a
      · simp [hk]
      · have hk' : ¬ a = k := fun h => hk h.symm
        simp only [hk, if_false, lookup, hk']
        cases lookup k rest <;> rfl
    · rw [List.filter_cons_of_pos (by simpa using ha)]
      unfold lookup
      rw [ih]
      by_cases hk : k = k'
      · have hak : ¬ a = k := fun h => ha (h.trans hk)
        simp [hk, hak]
        intro h
        exact absurd h ha
      · simp [hk]

theorem lookup_delete_ne {k k' : String} (h : k ≠ k') (m : Object) :
    lookup k (delete k' m) = lookup k m := by
  rw [lookup_delete, if_neg h]

theorem idField_congr {m m' : Object} (h : lookup "videoId" m' = lookup "videoId" m) :
    idField m' = idField m := by
  unfold idField
  rw [h]

theorem thumbnailsField_congr {m m' : Object}
    (h : lookup "thumbnail" m' = lookup "thumbnail" m) :
    thumbnailsField m' = thumbnailsField m := by
  unfold thumbnailsField
  rw [h]

theorem runsField_congr (k : String) {m m' : Object} (h : lookup k m' = lookup k m) :
    runsField k m' = runsField k m := by
  unfold runsField
  rw [h]

theorem simpleTextField_congr (k : String) {m m' : Object} (h : lookup k m' = lookup k m) :
    simpleTextField k m' = simpleTextField k m := by
  unfold simpleTextField
  rw [h]

theorem urlSuffixField_congr {m m' : Object}
    (h : lookup "navigationEndpoint" m' = lookup "navigationEndpoint" m) :
    urlSuffixField m' = urlSuffixField m := by
  unfold urlSuffixField
  rw [h]

/-- C8: for a mapping on which `parseItem` returns a record, `parseItem` on the
mapping with the key `videoId` removed returns the same record with the empty
ID: the eight other fields are extracted independently of the identifier. -/
theorem parseItem_without_videoId (m : Object) (r : VideoData)
    (h : parseItem m = some r) :
    parseItem (delete "videoId" m) = some { r with ID := "" } := by
  obtain ⟨_, h2, h3, h4, h5, h6, h7, h8, h9⟩ := (parseItem_eq_some m r).mp h
  rw [parseItem_eq_some]
  refine ⟨?_, ?_, ?_, ?_, ?_, ?_, ?_, ?_, ?_⟩
  · unfold idField
    rw [lookup_delete, if_pos rfl]
  · rw [thumbnailsField_congr (lookup_delete_ne (by decide) m)]; exact h2
  · rw [runsField_congr _ (lookup_delete_ne (by decide) m)]; exact h3
  · rw [runsField_congr _ (lookup_delete_ne (by decide) m)]; exact h4
  · rw [runsField_congr _ (lookup_delete_ne (by decide) m)]; exact h5
  · rw [simpleTextField_congr _ (lookup_delete_ne (by decide) m)]; exact h6
  · rw [simpleTextField_congr _ (lookup_delete_ne (by decide) m)]; exact h7
  · rw [simpleTextField_congr _ (lookup_delete_ne (by decide) m)]; exact h8
  · rw [urlSuffixField_congr (lookup_delete_ne (by decide) m)]; exact h9

/-- C8 (witness): a mapping with an identifier, a title and a duration. -/
theorem parseItem_without_videoId_witness :
    parseItem (delete "videoId"
        [("videoId", .str "abc123"),
         ("title", .obj [("runs", .arr [.obj [("text", .str "Hello")]])]),
         ("lengthText", .obj [("simpleText", .str "3:21")])])
      = some { ID := "", Thumbnails := [], Title := "Hello", LongDesc := "", Channel := "",
               Duration := "3:21", Views := "", PublishTime := "", URLSuffix := "" } :=
  parseItem_without_videoId
    [("videoId", .str "abc123"),
     ("title", .obj [("runs", .arr [.obj [("text", .str "Hello")]])]),
     ("lengthText", .obj [("simpleText", .str "3:21")])]
    { ID := "abc123", Thumbnails := [], Title := "Hello", LongDesc := "", Channel := "",
      Duration := "3:21", Views := "", PublishTime := "", URLSuffix := "" }
    (by decide)


theorem asMap_obj (m : Object) : asMap (.obj m) = some m := rfl

theorem asSlice_arr (xs : List JSON) : asSlice (.arr xs) = some xs := rfl

theorem recordsOf_append (xs ys : List JSON) :
    recordsOf (xs ++ ys) =
      (recordsOf xs).bind fun rs => (recordsOf ys).map (rs ++ ·) := by
  induction xs with
  | nil =>
    rw [List.nil_append]
    cases recordsOf ys <;> simp [recordsOf]
  | cons v vs ih =>
    rw [List.cons_append, recordsOf, recordsOf, ih]
    cases (asMap v).bind parseItem <;> cases recordsOf vs <;> cases recordsOf ys <;> simp

theorem parseItems_skip {m : Object} (rest : List JSON) (result : List VideoData)
    (h : lookup "videoRenderer" m = none) :
    parseItems (.obj m :: rest) result = parseItems rest result := by
  simp only [parseItems, asMap_obj, h]

theorem parseItems_video {m : Object} {v : JSON} (rest : List JSON) (result : List VideoData)
    (h : lookup "videoRenderer" m = some v) :
    parseItems (.obj m :: rest) result =
      ((asMap v).bind parseItem).bind fun r => parseItems rest (result ++ [r]) := by
  simp only [parseItems, asMap_obj, h]
  cases (asMap v).bind parseItem <;> rfl

theorem parseItems_eq (items : List JSON) (result : List VideoData)
    (h : ∀ item, item ∈ items → ∃ m, item = .obj m) :
    parseItems items result = (recordsOf (itemRenderers items)).map (result ++ ·) := by
  induction items generalizing result with
  | nil => simp [parseItems, itemRenderers, recordsOf]
  | cons item rest ih =>
    obtain ⟨m, rfl⟩ := h item (List.mem_cons_self _ _)
    have ih' := fun res => ih res (fun it hit => h it (List.mem_cons_of_mem _ hit))
    cases hv : lookup "videoRenderer" m with
    | none =>
      have hr : itemRenderers (JSON.obj m :: rest) = itemRenderers rest := by
        simp [itemRenderers, hv]
      rw [hr, parseItems_skip rest result hv]
      exact ih' result
    | some v =>
      have hr : itemRenderers (JSON.obj m :: rest) = v :: itemRenderers rest := by
        simp [itemRenderers, hv]
      rw [hr, recordsOf, parseItems_video rest result hv]
      cases (asMap v).bind parseItem with
      | none => rfl
      | some r =>
        simp only [ih', Option.some_bind]
        cases recordsOf (itemRenderers rest) with
        | none => rfl
        | some rs => simp

theorem parseSections_skip {content : Object} (rest : List Object) (result : List VideoData)
    (h : lookup "itemSectionRenderer" content = none) :
    parseSections (content :: rest) result = parseSections rest result := by
  simp only [parseSections, h]

theorem parseSections_items {content isr : Object} {items : List JSON} (rest : List Object)
    (result : List VideoData)
    (h : lookup "itemSectionRenderer" content = some (.obj isr))
    (hi : lookup "contents" isr = some (.arr items)) :
    parseSections (content :: rest) result =
      (parseItems items result).bind fun result' => parseSections rest result' := by
  simp only [parseSections, h, asMap_obj, hi, Option.some_bind, asSlice_arr]
  cases parseItems items result <;> rfl

theorem parseSections_eq (sections : List Object) (result : List VideoData)
    (h : SectionsShaped sections) :
    parseSections sections result = (recordsOf (videoRenderers sections)).map (result ++ ·) := by
  induction sections generalizing result with
  | nil => simp [parseSections, videoRenderers, recordsOf]
  | cons content rest ih =>
    have hrest : SectionsShaped rest := fun s hs => h s (List.mem_cons_of_mem _ hs)
    have ih' := fun res => ih res hrest
    cases hc : lookup "itemSectionRenderer" content with
    | none =>
      have hr : videoRenderers (content :: rest) = videoRenderers rest := by
        simp [videoRenderers, hc]
      rw [hr, parseSections_skip rest result hc]
      exact ih' result
    | some c =>
      obtain ⟨isr, items, rfl, hitems, hmaps⟩ := h content (List.mem_cons_self _ _) c hc
      have hr : videoRenderers (content :: rest) = itemRenderers items ++ videoRenderers rest := by
        simp [videoRenderers, hc, hitems]
      rw [hr, recordsOf_append, parseSections_items rest result hc hitems,
        parseItems_eq items result hmaps]
      cases recordsOf (itemRenderers items) with
      | none => rfl
      | some rs =>
        simp only [Option.map_some', ih', Option.some_bind]
        cases recordsOf (videoRenderers rest) with
        | none => rfl
        | some rs' => simp

theorem recordsOf_length {vs : List JSON} {rs : List VideoData} (h : recordsOf vs = some rs) :
    rs.length = vs.length := by
  induction vs generalizing rs with
  | nil =>
    simp only [recordsOf, Option.some.injEq] at h
    subst h
    rfl
  | cons v vs ih =>
    unfold recordsOf at h
    cases hp : (asMap v).bind parseItem with
    | none => simp [hp] at h
    | some r =>
      cases hr : recordsOf vs with
      | none => simp [hp, hr] at h
      | some rs' =>
        simp only [hp, hr, Option.some_bind, Option.map_some', Option.some.injEq] at h
        subst h
        simp [ih hr]

theorem recordsOf_isSome {vs : List JSON}
    (h : ∀ v, v ∈ vs → ∃ r, (asMap v).bind parseItem = some r) :
    ∃ rs, recordsOf vs = some rs := by
  induction vs with
  | nil => exact ⟨[], rfl⟩
  | cons v vs ih =>
    obtain ⟨r, hr⟩ := h v (List.mem_cons_self _ _)
    obtain ⟨rs, hrs⟩ := ih (fun w hw => h w (List.mem_cons_of_mem _ hw))
    exact ⟨r :: rs, by simp [recordsOf, hr, hrs]⟩

theorem parseResponse_of_sections {b : Bytes} {data : Object} {sections : List Object}
    (hd : unmarshalRawMap b = .ok data)
    (hs : unmarshalContents (lookup "contents" data) = .ok sections) :
    parseResponse b =
      match parseSections sections [] with
      | none => .panic
      | some result => .ok result := by
  unfold parseResponse
  rw [hd]
  simp only [hs]

theorem videoRenderers_of_noVideoItem {sections : List Object} (h : NoVideoItem sections) :
    videoRenderers sections = [] := by
  induction sections with
  | nil => rfl
  | cons content rest ih =>
    have hrest : NoVideoItem rest := fun s hs => h s (List.mem_cons_of_mem _ hs)
    simp only [videoRenderers, List.flatMap_cons, List.append_eq_nil]
    refine ⟨?_, ih hrest⟩
    cases hc : lookup "itemSectionRenderer" content with
    | none => rfl
    | some c =>
      obtain ⟨isr, items, rfl, hitems, hno⟩ := h content (List.mem_cons_self _ _) c hc
      simp only [hitems, itemRenderers, List.filterMap_eq_nil_iff]
      intro item hitem
      obtain ⟨m, rfl, hm⟩ := hno item hitem
      exact hm

theorem sectionsShaped_of_noVideoItem {sections : List Object} (h : NoVideoItem sections) :
    SectionsShaped sections := by
  intro content hc c hl
  obtain ⟨isr, items, h1, h2, h3⟩ := h content hc c hl
  exact ⟨isr, items, h1, h2, fun item hi => (h3 item hi).imp fun _ hm => hm.1⟩

/-- C7: when both decode steps succeed and no item of any `itemSectionRenderer`
has a `videoRenderer` key (the section sequence may be empty), `parseResponse`
returns the empty sequence of records and a nil error. -/
theorem parseResponse_no_video_items (b : Bytes) (data : Object) (sections : List Object)
    (hd : unmarshalRawMap b = .ok data)
    (hs : unmarshalContents (lookup "contents" data) = .ok sections)
    (h : NoVideoItem sections) :
    parseResponse b = .ok [] := by
  rw [parseResponse_of_sections hd hs, parseSections_eq _ _ (sectionsShaped_of_noVideoItem h),
    videoRenderers_of_noVideoItem h]
  rfl

/-- C9: for a decoded section sequence whose `itemSectionRenderer` values are
mappings with a `contents` sequence of mappings, the result of `parseResponse`
is the concatenation, in section order and then item order, of `parseItem`
applied to the `videoRenderer` value of each item that has the key (a panic of
one application is a panic of `parseResponse`); the records returned are as
many as those items, and they are returned whenever every application
returns. -/
theorem parseResponse_records_in_order (b : Bytes) (data : Object) (sections : List Object)
    (hd : unmarshalRawMap b = .ok data)
    (hs : unmarshalContents (lookup "contents" data) = .ok sections)
    (h : SectionsShaped sections) :
    (parseResponse b =
        match recordsOf (videoRenderers sections) with
        | none => .panic
        | some records => .ok records)
      ∧ (∀ records, parseResponse b = .ok records →
          records.length = (videoRenderers sections).length)
      ∧ ((∀ v, v ∈ videoRenderers sections → ∃ r, (asMap v).bind parseItem = some r) →
          ∃ records, parseResponse b = .ok records) := by
  have key : parseResponse b =
      match recordsOf (videoRenderers sections) with
      | none => .panic
      | some records => .ok records := by
    rw [parseResponse_of_sections hd hs, parseSections_eq _ _ h]
    cases recordsOf (videoRenderers sections) <;> simp
  refine ⟨key, ?_, ?_⟩
  · intro records hr
    rw [key] at hr
    cases hrec : recordsOf (videoRenderers sections) with
    | none => simp [hrec] at hr
    | some rs =>
      simp only [hrec, Result.ok.injEq] at hr
      subst hr
      exact recordsOf_length hrec
  · intro hall
    obtain ⟨rs, hrs⟩ := recordsOf_isSome hall
    exact ⟨rs, by rw [key, hrs]⟩


/-- C7 (witness): a response whose sections are a channel card and a shelf. -/
theorem parseResponse_no_video_items_witness :
    parseResponse noVideoObject = .ok [] :=
  parseResponse_no_video_items noVideoObject _ noVideoSections rfl rfl
    (by
      intro content hc c hl
      simp only [noVideoSections, List.mem_cons, List.mem_singleton, List.not_mem_nil,
        or_false] at hc
      rcases hc with rfl | rfl
      · have hc' : c = .obj [("contents", .arr [.obj [("channelRenderer", .obj [])]])] := by
          simpa [lookup] using hl.symm
        subst hc'
        refine ⟨_, _, rfl, rfl, ?_⟩
        intro item hi
        simp only [List.mem_singleton] at hi
        subst hi
        exact ⟨_, rfl, rfl⟩
      · simp [lookup] at hl)

/-- C9 (witness): a response with a channel card, a shelf and two videos; the
two records come out in source order. -/
theorem parseResponse_records_in_order_witness :
    parseResponse mixedObject = .ok [bareRecord "a", bareRecord "b"] :=
  (parseResponse_records_in_order mixedObject _ mixedSections rfl rfl
    (by
      intro content hc c hl
      simp only [mixedSections, List.mem_cons, List.mem_singleton, List.not_mem_nil,
        or_false] at hc
      rcases hc with rfl | rfl | rfl
      · have hc' : c = .obj [("contents", .arr
            [.obj [("channelRenderer", .obj [])],
             .obj [("videoRenderer", .obj [("videoId", .str "a")])]])] := by
          simpa [lookup] using hl.symm
        subst hc'
        refine ⟨_, _, rfl, rfl, ?_⟩
        intro item hi
        simp only [List.mem_cons, List.mem_singleton, List.not_mem_nil, or_false] at hi
        rcases hi with rfl | rfl <;> exact ⟨_, rfl⟩
      · simp [lookup] at hl
      · have hc' : c = .obj [("contents", .arr
            [.obj [("videoRenderer", .obj [("videoId", .str "b")])]])] := by
          simpa [lookup] using hl.symm
        subst hc'
        refine ⟨_, _, rfl, rfl, ?_⟩
        intro item hi
        simp only [List.mem_singleton] at hi
        subst hi
        exact ⟨_, rfl⟩)).1

/-- C10: for a timeout that is zero or negative, once the request is built,
`Search` does not run against the timer, whichever way a race would have gone:
it returns the error of `search` when `search` fails and otherwise what
`parseResponse` returns on the bytes `search` returned. -/
theorem Search_without_timeout {Request : Type} (newRequest : Bytes → Result Request)
    (search : Request → Result Bytes) (timerFirst : Bool) (query : Bytes) (timeout : Int)
    (req : Request) (ht : timeout ≤ 0) (hreq : newRequest (searchURL query) = .ok req) :
    Search newRequest search timerFirst query timeout =
      match search req with
      | .err e => .err e
      | .panic => .panic
      | .ok res => parseResponse res := by
  unfold Search
  rw [hreq]
  have hn : ¬ timeout > 0 := by omega
  simp only [if_neg hn, Search.finish]
  cases search req with
  | err e => rfl
  | panic => rfl
  | ok res => simp only []; cases parseResponse res <;> rfl

/-- C10 (witness): a fetch step that returns the object of the synthetic page,
with the timeout `0` and a timer that would have fired first. -/
theorem Search_without_timeout_witness :
    Search (fun url => Result.ok url) (fun _ => Result.ok (utf8 syntheticObject)) true
        (utf8 "Rob Pike Go speech") 0
      = .ok [helloRecord] := by
  rw [Search_without_timeout (fun url => Result.ok url)
    (fun _ => Result.ok (utf8 syntheticObject)) true (utf8 "Rob Pike Go speech") 0
    (searchURL (utf8 "Rob Pike Go speech")) (le_refl 0) rfl]
  decide


/-- C11: for a positive timeout, once the request is built, `Search` returns the
timeout error and no result when the timer fires before the fetch signals
completion, and what the fetch followed by `parseResponse` returns when the
fetch signals first. -/
theorem Search_with_timeout {Request : Type} (newRequest : Bytes → Result Request)
    (search : Request → Result Bytes) (query : Bytes) (timeout : Int) (req : Request)
    (ht : 0 < timeout) (hreq : newRequest (searchURL query) = .ok req) :
    Search newRequest search true query timeout = .err .timeout
      ∧ Search newRequest search false query timeout =
          match search req with
          | .err e => .err e
          | .panic => .panic
          | .ok res => parseResponse res := by
  unfold Search
  rw [hreq]
  have hp : timeout > 0 := ht
  simp only [if_pos hp, Search.finish]
  refine ⟨rfl, ?_⟩
  cases search req with
  | err e => rfl
  | panic => rfl
  | ok res => simp only []; cases parseResponse res <;> rfl

/-- C11 (witness): a timeout of ten microseconds, in nanoseconds, and a fetch
step that returns the object of the synthetic page. -/
theorem Search_with_timeout_witness :
    Search (fun url => Result.ok url) (fun _ => Result.ok (utf8 syntheticObject)) true
        (utf8 "Rob Pike Go speech") 10000 = .err .timeout
      ∧ Search (fun url => Result.ok url) (fun _ => Result.ok (utf8 syntheticObject)) false
        (utf8 "Rob Pike Go speech") 10000 = .ok [helloRecord] := by
  have h := Search_with_timeout (fun url => Result.ok url)
    (fun _ => Result.ok (utf8 syntheticObject)) (utf8 "Rob Pike Go speech") 10000
    (searchURL (utf8 "Rob Pike Go speech")) (by decide) rfl
  refine ⟨h.1, ?_⟩
  rw [h.2]
  decide

theorem searchRound_markerAbsent {r : Response} (h : MarkerAbsent r) :
    searchRound r = none := by
  obtain ⟨body, rfl, hb⟩ := h
  have hl : blobLocator body = .retry := by
    unfold blobLocator
    simp only [bytesIndex_of_absent hb]
    rfl
  simp only [searchRound, hl, ne_eq, not_true_eq_false, if_false]

theorem searchRound_reply (status : Int) (body : Except GoError Bytes) :
    searchRound (.reply status body) =
      if status ≠ statusOK then some (.err (.statusCode status))
      else
        match body with
        | .error e => some (.err e)
        | .ok resBody =>
          match blobLocator resBody with
          | .retry => none
          | .ret blob => some (.ok blob)
          | .panic => some .panic :=
  rfl

theorem blobLocator_retry {b : Bytes} (h : blobLocator b = .retry) :
    findIndex dataBytes b = none := by
  cases hf : findIndex dataBytes b with
  | none => rfl
  | some i =>
    exfalso
    unfold blobLocator bytesIndex at h
    rw [hf] at h
    have hi : ((i : Int) > -1) := by omega
    simp only [if_pos hi] at h
    split at h
    · cases h
    · split at h <;> cases h

theorem searchRound_isSome_of_not_markerAbsent {r : Response} (h : ¬ MarkerAbsent r) :
    ∃ out, searchRound r = some out := by
  cases r with
  | failed e => exact ⟨_, rfl⟩
  | reply status body =>
    rw [searchRound_reply]
    by_cases hs : status ≠ statusOK
    · rw [if_pos hs]; exact ⟨_, rfl⟩
    · rw [if_neg hs]
      have hs' : status = statusOK := not_not.mp hs
      subst hs'
      cases body with
      | error e => exact ⟨_, rfl⟩
      | ok resBody =>
        show ∃ out, (match blobLocator resBody with
          | .retry => none
          | .ret blob => some (.ok blob)
          | .panic => some .panic) = some out
        cases hl : blobLocator resBody with
        | ret blob => exact ⟨_, rfl⟩
        | panic => exact ⟨_, rfl⟩
        | retry =>
          exfalso
          exact h ⟨resBody, rfl, (findIndex_eq_none _ _).mp (blobLocator_retry hl)⟩

theorem searchFrom_retries {Request : Type} (client : Nat → Request → Response)
    (request : Request) (n k : Nat)
    (h : ∀ i, i < n → MarkerAbsent (client (k + i) request)) :
    ∀ fuel, searchFrom client request k (n + fuel) =
      (List.replicate n request ++ (searchFrom client request (k + n) fuel).1,
        (searchFrom client request (k + n) fuel).2) := by
  induction n generalizing k with
  | zero => intro fuel; simp
  | succ n ih =>
    intro fuel
    have h0 : searchRound (client k request) = none :=
      searchRound_markerAbsent (by simpa using h 0 (Nat.succ_pos n))
    have hrest : ∀ i, i < n → MarkerAbsent (client (k + 1 + i) request) := by
      intro i hi
      have := h (i + 1) (by omega)
      rwa [show k + (i + 1) = k + 1 + i by omega] at this
    have hf : n + 1 + fuel = (n + fuel) + 1 := by omega
    rw [hf, searchFrom]
    simp only [h0, ih (k + 1) hrest fuel, List.replicate_succ, List.cons_append]
    rw [show k + 1 + n = k + (n + 1) by omega]


theorem search_after_retries {Request : Type} (client : Nat → Request → Response)
    (request : Request) (n : Nat)
    (h : ∀ i, i < n → MarkerAbsent (client i request)) (fuel : Nat) :
    search client request (n + fuel) =
      (List.replicate n request ++ (searchFrom client request n fuel).1,
        (searchFrom client request n fuel).2) := by
  have := searchFrom_retries client request n 0 (by simpa using h) fuel
  simpa [search] using this

theorem search_terminal {Request : Type} (client : Nat → Request → Response)
    (request : Request) (n : Nat) (out : Result Bytes)
    (h : ∀ i, i < n → MarkerAbsent (client i request))
    (hout : searchRound (client n request) = some out) (fuel : Nat) (hf : n < fuel) :
    search client request fuel = (List.replicate (n + 1) request, some out) := by
  obtain ⟨f, rfl⟩ : ∃ f, fuel = n + (f + 1) := ⟨fuel - n - 1, by omega⟩
  rw [search_after_retries client request n h (f + 1), searchFrom]
  simp only [hout, List.replicate_succ']

/-- C12: when the first `n` responses have status 200 and bodies without the
marker, `search` has not returned after `n` rounds and has issued the same
request `n` times, and the next round issues it again; the first response of
another kind alone decides the result, whatever the number of rounds allowed
beyond it; and when every response has status 200 and a body without the
marker, `search` returns within no number of rounds. -/
theorem search_retries_unbounded {Request : Type} (client : Nat → Request → Response)
    (request : Request) (n : Nat)
    (h : ∀ i, i < n → MarkerAbsent (client i request)) :
    search client request n = (List.replicate n request, none)
      ∧ (search client request (n + 1)).1 = List.replicate (n + 1) request
      ∧ (¬ MarkerAbsent (client n request) →
          ∃ out, searchRound (client n request) = some out
            ∧ ∀ fuel, n < fuel →
                search client request fuel = (List.replicate (n + 1) request, some out))
      ∧ ((∀ i, MarkerAbsent (client i request)) →
          ∀ fuel, (search client request fuel).2 = none) := by
  refine ⟨?_, ?_, ?_, ?_⟩
  · have := search_after_retries client request n h 0
    simpa [searchFrom] using this
  · rw [search_after_retries client request n h 1, searchFrom]
    cases searchRound (client n request) <;> simp [searchFrom, List.replicate_succ']
  · intro hn
    obtain ⟨out, hout⟩ := searchRound_isSome_of_not_markerAbsent hn
    exact ⟨out, hout, fun fuel hf => search_terminal client request n out h hout fuel hf⟩
  · intro hall fuel
    have := search_after_retries client request fuel (fun i _ => hall i) 0
    simp only [Nat.add_zero, searchFrom] at this
    rw [this]

theorem markerAbsent_html :
    MarkerAbsent (.reply 200 (.ok (utf8 "<html></html>"))) :=
  ⟨_, rfl, (findIndex_eq_none _ _).mp (by decide)⟩

/-- C12 (witness): a client that answers twice without the marker and then with
a page that holds it; the two rounds issue the same request and do not
return. -/
theorem search_retries_unbounded_witness :
    search slowClient (searchURL (utf8 "go")) 2
      = (List.replicate 2 (searchURL (utf8 "go")), none) :=
  (search_retries_unbounded slowClient (searchURL (utf8 "go")) 2
    (by
      intro i hi
      have : slowClient i (searchURL (utf8 "go")) = .reply 200 (.ok (utf8 "<html></html>")) := by
        simp [slowClient, hi]
      rw [this]
      exact markerAbsent_html)).1

/-- C13: a response whose status code is not 200, met after any number of
responses without the marker, makes `search` return the status error at once:
whatever its body holds and however many rounds are allowed, no request is
issued after the one it answers. -/
theorem search_status_not_ok {Request : Type} (client : Nat → Request → Response)
    (request : Request) (n : Nat) (status : Int) (body : Except GoError Bytes)
    (h : ∀ i, i < n → MarkerAbsent (client i request))
    (hr : client n request = .reply status body) (hs : status ≠ statusOK) :
    ∀ fuel, n < fuel →
      search client request fuel
        = (List.replicate (n + 1) request, some (.err (.statusCode status))) := by
  intro fuel hf
  refine search_terminal client request n _ h ?_ fuel hf
  rw [hr, searchRound_reply, if_pos hs]

/-- C13 (witness): the second response has the status 503 and a body that holds
the marker; `search` returns the status error after two requests, also when ten
rounds are allowed. -/
theorem search_status_not_ok_witness :
    search refusingClient (searchURL (utf8 "go")) 10
      = (List.replicate 2 (searchURL (utf8 "go")), some (.err (.statusCode 503))) :=
  search_status_not_ok refusingClient (searchURL (utf8 "go")) 1 503 (.ok spacedPage)
    (by
      intro i hi
      have : refusingClient i (searchURL (utf8 "go")) = .reply 200 (.ok (utf8 "<html></html>")) := by
        simp [refusingClient, hi]
      rw [this]
      exact markerAbsent_html)
    rfl (by decide) 10 (by decide)


theorem thumbnailUrls_eq_some {xs : List JSON} {acc res : List String}
    (h : thumbnailUrls xs acc = some res) :
    res = acc ++ xs.filterMap thumbnailUrl := by
  induction xs generalizing acc with
  | nil =>
    simp only [thumbnailUrls, Option.some.injEq] at h
    simp [← h]
  | cons t rest ih =>
    unfold thumbnailUrls at h
    cases t with
    | obj tm =>
      cases hl : lookup "url" tm with
      | none =>
        simp only [asMap_obj, hl] at h
        simp [ih h, thumbnailUrl, hl]
      | some u =>
        cases u with
        | str s =>
          simp only [asMap_obj, hl, asString] at h
          simp [ih h, thumbnailUrl, hl]
        | _ => simp [asMap_obj, hl, asString] at h
    | _ => simp [asMap] at h

theorem thumbnailUrl_isSome_iff {x : JSON}
    (hx : ∃ tm, x = .obj tm ∧ WhenPresent "url" tm IsString) :
    (∃ s, thumbnailUrl x = some s) ↔ HasUrl x := by
  obtain ⟨tm, rfl, hs⟩ := hx
  constructor
  · rintro ⟨s, h⟩
    cases hl : lookup "url" tm with
    | none => simp [thumbnailUrl, hl] at h
    | some v => exact ⟨tm, v, rfl, hl⟩
  · rintro ⟨m, v, hm, hv⟩
    cases hm
    obtain ⟨s, rfl⟩ := hs v hv
    exact ⟨s, by simp [thumbnailUrl, hv]⟩

theorem length_filterMap_eq_iff {α β : Type} (f : α → Option β) (xs : List α) :
    (xs.filterMap f).length = xs.length ↔ ∀ x, x ∈ xs → ∃ b, f x = some b := by
  induction xs with
  | nil => simp
  | cons x rest ih =>
    have hle := List.length_filterMap_le f rest
    cases hx : f x with
    | none =>
      simp only [List.filterMap_cons, hx, List.length_cons, List.mem_cons, forall_eq_or_imp]
      constructor
      · intro h; omega
      · rintro ⟨⟨b, hb⟩, _⟩; cases hb
    | some b =>
      simp only [List.filterMap_cons, hx, List.length_cons, List.mem_cons, forall_eq_or_imp,
        Nat.add_right_cancel_iff, ih]
      constructor
      · intro h; exact ⟨⟨b, rfl⟩, h⟩
      · rintro ⟨_, h⟩; exact h

/-- C14 (counterexample): `thumbnail.thumbnails` is a sequence of mappings and
`parseItem` returns no record: on a `url` that is a number, and on a `videoId`
that is a number beside thumbnails whose `url` values are strings. -/
theorem parseItem_thumbnails_panics :
    parseItem [("thumbnail", .obj [("thumbnails", .arr [.obj [("url", .num ⟨false, 5, 0⟩)]])])]
        = none
      ∧ parseItem
          [("videoId", .num ⟨false, 5, 0⟩),
           ("thumbnail", .obj [("thumbnails", .arr [.obj [("url", .str "u1")]])])]
        = none := by
  decide

/-- C14 (amended): for a mapping whose values have the shapes `parseItem`
expects, `parseItem` returns a record whose `Thumbnails` is empty when
`thumbnail` or `thumbnails` is absent and, when `thumbnail.thumbnails` is a
sequence, is the sequence of the string `url` values of the elements that have
a `url` key, in source order: it is at most as long as the sequence, and as
long exactly when every element has a `url`. -/
theorem parseItem_thumbnails (m : Object) (hs : ExpectedShapes m) :
    ∃ r, parseItem m = some r
      ∧ (lookup "thumbnail" m = none → r.Thumbnails = [])
      ∧ (∀ d, lookup "thumbnail" m = some (.obj d) → lookup "thumbnails" d = none →
          r.Thumbnails = [])
      ∧ (∀ d xs, lookup "thumbnail" m = some (.obj d) →
          lookup "thumbnails" d = some (.arr xs) →
          r.Thumbnails = xs.filterMap thumbnailUrl
            ∧ r.Thumbnails.length ≤ xs.length
            ∧ (r.Thumbnails.length = xs.length ↔ ∀ x, x ∈ xs → HasUrl x)) := by
  obtain ⟨r, h⟩ := (parseItem_isSome_iff_shapes m).mpr hs
  refine ⟨r, h, ?_⟩
  have ht := ((parseItem_eq_some m r).mp h).2.1
  unfold thumbnailsField at ht
  refine ⟨?_, ?_, ?_⟩
  · intro h1
    simp only [h1, Option.some.injEq] at ht
    exact ht.symm
  · intro d h1 h2
    simp only [h1, asMap_obj, h2, Option.some.injEq] at ht
    exact ht.symm
  · intro d xs h1 h2
    simp only [h1, asMap_obj, h2, asSlice_arr] at ht
    have hval := thumbnailUrls_eq_some ht
    rw [List.nil_append] at hval
    have hshape := (thumbnailUrls_isSome xs []).mp ⟨_, ht⟩
    refine ⟨hval, ?_, ?_⟩
    · rw [hval]; exact List.length_filterMap_le _ _
    · rw [hval, length_filterMap_eq_iff]
      constructor
      · intro hall x hx
        exact (thumbnailUrl_isSome_iff (hshape x hx)).mp (hall x hx)
      · intro hall x hx
        exact (thumbnailUrl_isSome_iff (hshape x hx)).mpr (hall x hx)

/-- C14 (witness): three thumbnails, the second without `url`, whose record has
the two urls in source order, and a mapping without `thumbnail`, whose record
has no thumbnails. -/
theorem parseItem_thumbnails_witness :
    (∃ r, parseItem
        [("videoId", .str "a"),
         ("thumbnail", .obj [("thumbnails", .arr
            [.obj [("url", .str "u1")], .obj [("width", .num ⟨false, 120, 0⟩)],
             .obj [("url", .str "u3")]])])] = some r
      ∧ r.Thumbnails = ["u1", "u3"])
    ∧ (∃ r, parseItem [("videoId", .str "a")] = some r ∧ r.Thumbnails = []) := by
  constructor
  · obtain ⟨r, hr, _, _, h3⟩ :=
      parseItem_thumbnails
        [("videoId", .str "a"),
         ("thumbnail", .obj [("thumbnails", .arr
            [.obj [("url", .str "u1")], .obj [("width", .num ⟨false, 120, 0⟩)],
             .obj [("url", .str "u3")]])])]
        ((parseItem_isSome_iff_shapes _).mp ⟨_, rfl⟩)
    exact ⟨r, hr, (h3 _ _ rfl rfl).1.trans rfl⟩
  · obtain ⟨r, hr, h1, _⟩ :=
      parseItem_thumbnails [("videoId", .str "a")]
        ((parseItem_isSome_iff_shapes _).mp ⟨_, rfl⟩)
    exact ⟨r, hr, h1 rfl⟩


theorem runsField_eq_some {k : String} {m : Object} {s : String}
    (h : runsField k m = some s) :
    (lookup k m = none → s = "")
      ∧ (∀ v, lookup k m = some v → (asMap v).bind getTextFromRuns = some s) := by
  unfold runsField at h
  constructor
  · intro hk
    simp only [hk, Option.some.injEq] at h
    exact h.symm
  · intro v hk
    simp only [hk] at h
    exact h

/-- C15 (counterexample): `runs` is a sequence of mappings whose first element
has a number under `text`, and `getTextFromRuns` panics; so does `parseItem` on
a mapping with this value under `title`. -/
theorem getTextFromRuns_numeric_text_panics :
    getTextFromRuns [("runs", .arr [.obj [("text", .num ⟨false, 5, 0⟩)]])] = none
      ∧ parseItem [("title", .obj [("runs", .arr [.obj [("text", .num ⟨false, 5, 0⟩)]])])]
        = none := by
  decide

/-- C15 (amended): `getTextFromRuns` returns the empty string when `runs` is
absent, when it is the empty sequence, and when its first element is a mapping
without `text`; it returns the string under `text` of the first element when
that value is a string, whatever the later elements are.  For a mapping whose
values have the shapes `parseItem` expects, `parseItem` returns a record whose
`Title`, `LongDesc` and `Channel` are the results of this function on the
values under `title`, `descriptionSnippet` and `longBylineText`, and are empty
when the key is absent. -/
theorem getTextFromRuns_first_run (d : Object) :
    (lookup "runs" d = none → getTextFromRuns d = some "")
      ∧ (lookup "runs" d = some (.arr []) → getTextFromRuns d = some "")
      ∧ (∀ t rest, lookup "runs" d = some (.arr (.obj t :: rest)) → lookup "text" t = none →
          getTextFromRuns d = some "")
      ∧ (∀ t rest s, lookup "runs" d = some (.arr (.obj t :: rest)) →
          lookup "text" t = some (.str s) → getTextFromRuns d = some s)
      ∧ (∀ m, ExpectedShapes m → ∃ r, parseItem m = some r
          ∧ ((lookup "title" m = none → r.Title = "")
            ∧ ∀ v, lookup "title" m = some v → (asMap v).bind getTextFromRuns = some r.Title)
          ∧ ((lookup "descriptionSnippet" m = none → r.LongDesc = "")
            ∧ ∀ v, lookup "descriptionSnippet" m = some v →
              (asMap v).bind getTextFromRuns = some r.LongDesc)
          ∧ ((lookup "longBylineText" m = none → r.Channel = "")
            ∧ ∀ v, lookup "longBylineText" m = some v →
              (asMap v).bind getTextFromRuns = some r.Channel)) := by
  refine ⟨?_, ?_, ?_, ?_, ?_⟩
  · intro h
    simp only [getTextFromRuns, h]
  · intro h
    simp only [getTextFromRuns, h, asSlice_arr]
  · intro t rest h ht
    simp only [getTextFromRuns, h, asSlice_arr, asMap_obj, ht]
  · intro t rest s h ht
    simp only [getTextFromRuns, h, asSlice_arr, asMap_obj, ht, asString]
  · intro m hs
    obtain ⟨r, h⟩ := (parseItem_isSome_iff_shapes m).mpr hs
    obtain ⟨_, _, h3, h4, h5, _⟩ := (parseItem_eq_some m r).mp h
    exact ⟨r, h, runsField_eq_some h3, runsField_eq_some h4, runsField_eq_some h5⟩

/-- C15 (witness): two runs under `title` and none under `longBylineText`: the
text of the first run is returned, and the record has it as `Title`, with an
empty `LongDesc` and `Channel`. -/
theorem getTextFromRuns_first_run_witness :
    getTextFromRuns [("runs", .arr [.obj [("text", .str "Hello")], .obj [("text", .str "World")]])]
        = some "Hello"
      ∧ ∃ r, parseItem
          [("title", .obj [("runs", .arr
              [.obj [("text", .str "Hello")], .obj [("text", .str "World")]])]),
           ("longBylineText", .obj [])] = some r
        ∧ r.Title = "Hello" ∧ r.LongDesc = "" ∧ r.Channel = "" := by
  refine ⟨(getTextFromRuns_first_run
    [("runs", .arr [.obj [("text", .str "Hello")], .obj [("text", .str "World")]])]).2.2.2.1
    _ _ _ rfl rfl, ?_⟩
  obtain ⟨r, hr, ⟨_, ht⟩, ⟨hl, _⟩, ⟨_, hc⟩⟩ :=
    (getTextFromRuns_first_run []).2.2.2.2
      [("title", .obj [("runs", .arr
          [.obj [("text", .str "Hello")], .obj [("text", .str "World")]])]),
       ("longBylineText", .obj [])]
      ((parseItem_isSome_iff_shapes _).mp ⟨_, rfl⟩)
  refine ⟨r, hr, ?_, hl rfl, ?_⟩
  · have := ht _ rfl
    exact (Option.some.inj this).symm
  · have := hc _ rfl
    exact (Option.some.inj this).symm

/-- C16 (counterexample): every link of the chain is a mapping and `parseItem`
returns no record: on a `url` that is a number, and on a `videoId` that is a
number beside a chain that ends in a string. -/
theorem parseItem_urlSuffix_panics :
    parseItem
        [("navigationEndpoint", .obj [("commandMetadata",
          .obj [("webCommandMetadata", .obj [("url", .num ⟨false, 5, 0⟩)])])])]
        = none
      ∧ parseItem
          [("videoId", .num ⟨false, 5, 0⟩),
           ("navigationEndpoint", .obj [("commandMetadata",
            .obj [("webCommandMetadata", .obj [("url", .str "/watch?v=a")])])])]
        = none := by
  decide

/-- C16 (amended): for a mapping whose values have the shapes `parseItem`
expects, `parseItem` returns a record whose `URLSuffix` is the string under `url`
at the end of the chain `navigationEndpoint`, `commandMetadata`,
`webCommandMetadata` when the four keys are present, and the empty string when
one of the four keys is missing. -/
theorem parseItem_urlSuffix (m : Object) (hs : ExpectedShapes m) :
    ∃ r, parseItem m = some r
      ∧ (∀ ne cm wm u, lookup "navigationEndpoint" m = some (.obj ne) →
          lookup "commandMetadata" ne = some (.obj cm) →
          lookup "webCommandMetadata" cm = some (.obj wm) →
          lookup "url" wm = some u → u = .str r.URLSuffix)
      ∧ (lookup "navigationEndpoint" m = none → r.URLSuffix = "")
      ∧ (∀ ne, lookup "navigationEndpoint" m = some (.obj ne) →
          lookup "commandMetadata" ne = none → r.URLSuffix = "")
      ∧ (∀ ne cm, lookup "navigationEndpoint" m = some (.obj ne) →
          lookup "commandMetadata" ne = some (.obj cm) →
          lookup "webCommandMetadata" cm = none → r.URLSuffix = "")
      ∧ (∀ ne cm wm, lookup "navigationEndpoint" m = some (.obj ne) →
          lookup "commandMetadata" ne = some (.obj cm) →
          lookup "webCommandMetadata" cm = some (.obj wm) →
          lookup "url" wm = none → r.URLSuffix = "") := by
  obtain ⟨r, h⟩ := (parseItem_isSome_iff_shapes m).mpr hs
  refine ⟨r, h, ?_⟩
  have hu := ((parseItem_eq_some m r).mp h).2.2.2.2.2.2.2.2
  unfold urlSuffixField at hu
  refine ⟨?_, ?_, ?_, ?_, ?_⟩
  · intro ne cm wm u h1 h2 h3 h4
    simp only [h1, asMap_obj, h2, h3, h4] at hu
    cases u with
    | str s =>
      simp only [asString, Option.some.injEq] at hu
      rw [hu]
    | _ => simp [asString] at hu
  · intro h1
    simp only [h1, Option.some.injEq] at hu
    exact hu.symm
  · intro ne h1 h2
    simp only [h1, asMap_obj, h2, Option.some.injEq] at hu
    exact hu.symm
  · intro ne cm h1 h2 h3
    simp only [h1, asMap_obj, h2, h3, Option.some.injEq] at hu
    exact hu.symm
  · intro ne cm wm h1 h2 h3 h4
    simp only [h1, asMap_obj, h2, h3, h4, Option.some.injEq] at hu
    exact hu.symm

/-- C16 (witness): a mapping with the whole chain, whose record has the string at
the end of the chain as `URLSuffix`, and a mapping whose `commandMetadata` has
no `webCommandMetadata`, whose record has the empty `URLSuffix`. -/
theorem parseItem_urlSuffix_witness :
    (∃ r, parseItem
        [("videoId", .str "a"),
         ("navigationEndpoint", .obj [("commandMetadata",
            .obj [("webCommandMetadata", .obj [("url", .str "/watch?v=a")])])])] = some r
      ∧ r.URLSuffix = "/watch?v=a")
    ∧ (∃ r, parseItem
        [("videoId", .str "a"),
         ("navigationEndpoint", .obj [("commandMetadata", .obj [])])] = some r
      ∧ r.URLSuffix = "") := by
  constructor
  · obtain ⟨r, hr, h1, _⟩ :=
      parseItem_urlSuffix
        [("videoId", .str "a"),
         ("navigationEndpoint", .obj [("commandMetadata",
            .obj [("webCommandMetadata", .obj [("url", .str "/watch?v=a")])])])]
        ((parseItem_isSome_iff_shapes _).mp ⟨_, rfl⟩)
    have := h1 _ _ _ _ rfl rfl rfl rfl
    exact ⟨r, hr, (JSON.str.inj this).symm⟩
  · obtain ⟨r, hr, _, _, _, h4, _⟩ :=
      parseItem_urlSuffix
        [("videoId", .str "a"),
         ("navigationEndpoint", .obj [("commandMetadata", .obj [])])]
        ((parseItem_isSome_iff_shapes _).mp ⟨_, rfl⟩)
    exact ⟨r, hr, h4 _ _ rfl rfl rfl⟩

theorem lookup_append_singleton (k k' : String) (v : JSON) (m : Object) :
    lookup k' (m ++ [(k, v)]) = if k = k' then some v else lookup k' m := by
  induction m with
  | nil => simp [lookup]
  | cons kv rest ih =>
    obtain ⟨a, w⟩ := kv
    rw [List.cons_append, lookup, lookup, ih]
    by_cases hk : k = k'
    · rw [if_pos hk, if_pos hk]
    · rw [if_neg hk, if_neg hk]

theorem parseItem_congr {m m' : Object} (h : ∀ k, k ∈ itemKeys → lookup k m' = lookup k m) :
    parseItem m' = parseItem m := by
  rw [parseItem_eq_fields, parseItem_eq_fields,
    idField_congr (h "videoId" (by decide)),
    thumbnailsField_congr (h "thumbnail" (by decide)),
    runsField_congr "title" (h "title" (by decide)),
    runsField_congr "descriptionSnippet" (h "descriptionSnippet" (by decide)),
    runsField_congr "longBylineText" (h "longBylineText" (by decide)),
    simpleTextField_congr "lengthText" (h "lengthText" (by decide)),
    simpleTextField_congr "viewCountText" (h "viewCountText" (by decide)),
    simpleTextField_congr "publishedTimeText" (h "publishedTimeText" (by decide)),
    urlSuffixField_congr (h "navigationEndpoint" (by decide))]

/-- C18: `parseItem` depends only on the nine keys it reads: assigning any value
to any other key of the mapping leaves its outcome unchanged, and two mappings
that agree on the nine keys have the same outcome. -/
theorem parseItem_depends_on_itemKeys (m : Object) :
    (∀ k v, k ∉ itemKeys → parseItem (assign k v m) = parseItem m)
      ∧ (∀ m', (∀ k, k ∈ itemKeys → lookup k m' = lookup k m) → parseItem m' = parseItem m) := by
  refine ⟨?_, fun m' h => parseItem_congr h⟩
  intro k v hk
  apply parseItem_congr
  intro k' hk'
  unfold assign
  rw [lookup_append_singleton, if_neg]
  rintro rfl
  exact hk hk'

/-- C18 (witness): assigning the key `badges` to the mapping of one video. -/
theorem parseItem_depends_on_itemKeys_witness :
    parseItem (assign "badges" (.arr [.num ⟨false, 1, 0⟩]) [("videoId", .str "a")])
      = parseItem [("videoId", .str "a")] :=
  (parseItem_depends_on_itemKeys [("videoId", .str "a")]).1 "badges" _ (by decide)


theorem parseItems_isSome {items : List JSON}
    (h : ∀ item, item ∈ items → ∃ m, item = .obj m ∧ ∀ v, lookup "videoRenderer" m = some v →
      ∃ r, (asMap v).bind parseItem = some r) :
    ∀ result, ∃ result', parseItems items result = some result' := by
  induction items with
  | nil => intro result; exact ⟨result, rfl⟩
  | cons item rest ih =>
    intro result
    obtain ⟨m, rfl, hv⟩ := h item (List.mem_cons_self _ _)
    have ih' := ih (fun it hit => h it (List.mem_cons_of_mem _ hit))
    cases hl : lookup "videoRenderer" m with
    | none =>
      rw [parseItems_skip rest result hl]
      exact ih' result
    | some v =>
      obtain ⟨r, hr⟩ := hv v hl
      rw [parseItems_video rest result hl, hr]
      exact ih' _

theorem parseItems_types {items : List JSON} {result result' : List VideoData}
    (h : parseItems items result = some result') :
    ∀ item, item ∈ items → ∃ m, item = .obj m ∧ ∀ v, lookup "videoRenderer" m = some v →
      ∃ r, (asMap v).bind parseItem = some r := by
  induction items generalizing result with
  | nil => intro item hi; cases hi
  | cons item rest ih =>
    cases item with
    | obj m =>
      cases hl : lookup "videoRenderer" m with
      | none =>
        rw [parseItems_skip rest result hl] at h
        intro it hit
        rcases List.mem_cons.mp hit with rfl | hit
        · exact ⟨m, rfl, fun v hv => by rw [hl] at hv; cases hv⟩
        · exact ih h it hit
      | some v =>
        rw [parseItems_video rest result hl] at h
        cases hp : (asMap v).bind parseItem with
        | none => rw [hp] at h; cases h
        | some r =>
          rw [hp] at h
          intro it hit
          rcases List.mem_cons.mp hit with rfl | hit
          · refine ⟨m, rfl, fun w hw => ?_⟩
            rw [hl] at hw
            cases hw
            exact ⟨r, hp⟩
          · exact ih h it hit
    | _ => simp [parseItems, asMap] at h

theorem parseSections_isSome {sections : List Object}
    (hc : ContentsPresent sections) (h : TypesAsserted sections) :
    ∀ result, ∃ result', parseSections sections result = some result' := by
  induction sections with
  | nil => intro result; exact ⟨result, rfl⟩
  | cons content rest ih =>
    intro result
    have ih' := ih (fun s hs => hc s (List.mem_cons_of_mem _ hs))
      (fun s hs => h s (List.mem_cons_of_mem _ hs))
    cases hl : lookup "itemSectionRenderer" content with
    | none =>
      rw [parseSections_skip rest result hl]
      exact ih' result
    | some c =>
      obtain ⟨isr, rfl, hcv⟩ := h content (List.mem_cons_self _ _) c hl
      obtain ⟨cv, hcv'⟩ := hc content (List.mem_cons_self _ _) isr hl
      obtain ⟨items, rfl, hitems⟩ := hcv cv hcv'
      rw [parseSections_items rest result hl hcv']
      obtain ⟨result', hr⟩ := parseItems_isSome hitems result
      rw [hr]
      exact ih' result'

theorem parseSections_types {sections : List Object} {result result' : List VideoData}
    (h : parseSections sections result = some result') : TypesAsserted sections := by
  induction sections generalizing result with
  | nil => intro content hc; cases hc
  | cons content rest ih =>
    cases hl : lookup "itemSectionRenderer" content with
    | none =>
      rw [parseSections_skip rest result hl] at h
      intro s hs c hcs
      rcases List.mem_cons.mp hs with rfl | hs
      · rw [hl] at hcs; cases hcs
      · exact ih h s hs c hcs
    | some c =>
      unfold parseSections at h
      simp only [hl] at h
      cases c with
      | obj isr =>
        simp only [asMap_obj] at h
        cases hcv : lookup "contents" isr with
        | none => simp [hcv] at h
        | some cv =>
          cases cv with
          | arr items =>
            simp only [hcv, Option.some_bind, asSlice_arr] at h
            cases hp : parseItems items result with
            | none => simp [hp] at h
            | some mid =>
              simp only [hp] at h
              intro s hs c' hcs
              rcases List.mem_cons.mp hs with rfl | hs
              · rw [hl] at hcs
                cases hcs
                refine ⟨isr, rfl, fun cv' hcv'' => ?_⟩
                rw [hcv] at hcv''
                cases hcv''
                exact ⟨items, rfl, parseItems_types hp⟩
              · exact ih h s hs c' hcs
          | _ => simp [hcv, asSlice] at h
      | _ => simp [asMap] at h

/-- C17 (counterexample): the section sequence decodes, its one section has a
number under `itemSectionRenderer`, and `parseResponse` panics instead of
skipping the section. -/
theorem oddSection_panics :
    (∃ data, unmarshalRawMap oddSectionObject = .ok data
        ∧ unmarshalContents (lookup "contents" data)
            = .ok [[("itemSectionRenderer", .num ⟨false, 5, 0⟩)]])
      ∧ parseResponse oddSectionObject = .panic :=
  ⟨⟨_, rfl, rfl⟩, by decide⟩

/-- C17 (amended): for a decoded section sequence in which every
`itemSectionRenderer` mapping has a `contents` key, `parseResponse` completes
with a sequence of records exactly when every value below the fixed path has
the type the traversal asserts; a value of another type makes it panic rather
than contribute no record. -/
theorem parseResponse_completes_iff_types (b : Bytes) (data : Object)
    (sections : List Object)
    (hd : unmarshalRawMap b = .ok data)
    (hs : unmarshalContents (lookup "contents" data) = .ok sections)
    (hc : ContentsPresent sections) :
    ((∃ records, parseResponse b = .ok records) ↔ TypesAsserted sections)
      ∧ (¬ TypesAsserted sections → parseResponse b = .panic) := by
  rw [parseResponse_of_sections hd hs]
  constructor
  · constructor
    · rintro ⟨records, hr⟩
      cases hp : parseSections sections [] with
      | none => rw [hp] at hr; cases hr
      | some rs => exact parseSections_types hp
    · intro ht
      obtain ⟨rs, hrs⟩ := parseSections_isSome hc ht []
      exact ⟨rs, by rw [hrs]⟩
  · intro hn
    cases hp : parseSections sections [] with
    | none => rfl
    | some rs => exact absurd (parseSections_types hp) hn

/-- C17 (witness): a response with a channel card, a shelf and two videos, all of
the asserted types. -/
theorem parseResponse_completes_iff_types_witness :
    (∃ records, parseResponse mixedObject = .ok records) ↔ TypesAsserted mixedSections :=
  (parseResponse_completes_iff_types mixedObject _ mixedSections rfl rfl
    (by
      intro content hc isr hl
      simp only [mixedSections, List.mem_cons, List.mem_singleton, List.not_mem_nil,
        or_false] at hc
      rcases hc with rfl | rfl | rfl
      · have hi : isr = [("contents", .arr
            [.obj [("channelRenderer", .obj [])],
             .obj [("videoRenderer", .obj [("videoId", .str "a")])]])] := by
          simpa [lookup] using hl.symm
        subst hi
        exact ⟨_, rfl⟩
      · simp [lookup] at hl
      · have hi : isr = [("contents", .arr
            [.obj [("videoRenderer", .obj [("videoId", .str "b")])]])] := by
          simpa [lookup] using hl.symm
        subst hi
        exact ⟨_, rfl⟩)).1


theorem sliceFrom_skip {b : Bytes} {p : Nat} (h : p + 16 ≤ b.length) :
    sliceFrom b ((p : Int) + ((13 : Nat) : Int) + 3) = some (b.drop (p + 16)) := by
  unfold sliceFrom
  have h1 : (p : Int) + ((13 : Nat) : Int) + 3 = ((p + 16 : Nat) : Int) := by push_cast; ring
  rw [h1, if_pos ⟨by omega, by omega⟩, Int.toNat_ofNat]

theorem blobLocator_short_tail {b : Bytes} {p : Nat} (hp : FirstAt dataBytes b p)
    (h : b.length < p + 16) : blobLocator b = .panic := by
  unfold blobLocator
  simp only [bytesIndex_of_firstAt hp, dataBytes_length]
  have hpos : ((p : Int) > -1) := by omega
  rw [if_pos hpos]
  have hs : sliceFrom b ((p : Int) + ((13 : Nat) : Int) + 3) = none := by
    unfold sliceFrom
    have h1 : (p : Int) + ((13 : Nat) : Int) + 3 = ((p + 16 : Nat) : Int) := by push_cast; ring
    rw [h1, if_neg]
    rintro ⟨_, h2⟩
    omega
  rw [hs]

/-- C19 (the code at the failing inputs): when the marker ends the body, or is
followed by one or two bytes, the slice expression `resBody[pos+len(dataBytes)+3:]`
is out of range and the locator panics; with three bytes after the marker it
does not. -/
theorem blobLocator_panics_near_end :
    blobLocator (utf8 "<html>ytInitialData") = .panic
      ∧ blobLocator (utf8 "<html>ytInitialData ") = .panic
      ∧ blobLocator (utf8 "<html>ytInitialData =") = .panic
      ∧ blobLocator (utf8 "<html>ytInitialData = ") = .ret [] := by
  decide

theorem blobLocator_ret_of_firstAt {b : Bytes} {p e : Nat}
    (hp : FirstAt dataBytes b p) (he : FirstAt closing (b.drop (p + 16)) e) :
    blobLocator b = .ret ((b.drop (p + 16)).take (e + 1)) := by
  have hlen := occursAt_length_le he.1
  rw [closing_length, List.length_drop] at hlen
  unfold blobLocator
  simp only [bytesIndex_of_firstAt hp, dataBytes_length]
  have hpos : ((p : Int) > -1) := by omega
  rw [if_pos hpos, sliceFrom_skip (by omega)]
  simp only [bytesIndex_of_firstAt he]
  have ht : sliceTo (b.drop (p + 16)) ((e : Int) + 1) = some ((b.drop (p + 16)).take (e + 1)) := by
    unfold sliceTo
    have h1 : (e : Int) + 1 = ((e + 1 : Nat) : Int) := by push_cast; ring
    rw [h1, if_pos ⟨by omega, by rw [List.length_drop]; omega⟩, Int.toNat_ofNat]
  rw [ht]

theorem closing_eq : closing = [0x7D, 0x3B] := by decide

/-- C20: when the marker is found and the closing sequence occurs after the skip
point, the slice the locator returns is not empty, ends with the byte `}`,
holds no occurrence of the closing sequence, and is a contiguous part of the
body that starts after the end of the first occurrence of the marker. -/
theorem blobLocator_blob_invariants (b : Bytes) (p q : Nat)
    (hp : FirstAt dataBytes b p) (hq : OccursAt closing (b.drop (p + 16)) q) :
    ∃ blob, blobLocator b = .ret blob
      ∧ blob ≠ []
      ∧ blob.getLast? = some 0x7D
      ∧ (∀ i, ¬ OccursAt closing blob i)
      ∧ ∃ pre post, b = pre ++ blob ++ post ∧ p + dataBytes.length ≤ pre.length := by
  have hsome : ∃ e, findIndex closing (b.drop (p + 16)) = some e := by
    cases hf : findIndex closing (b.drop (p + 16)) with
    | none => exact absurd hq ((findIndex_eq_none _ _).mp hf q)
    | some e => exact ⟨e, rfl⟩
  obtain ⟨e, hfe⟩ := hsome
  have he : FirstAt closing (b.drop (p + 16)) e := (findIndex_eq_some _ _ _).mp hfe
  have hlen := occursAt_length_le he.1
  rw [closing_length, List.length_drop] at hlen
  obtain ⟨pre', post', hrest, hpre'⟩ := he.1
  rw [closing_eq] at hrest
  have hrest' : b.drop (p + 16) = (pre' ++ [0x7D]) ++ (0x3B :: post') := by
    rw [hrest]; simp
  have hblob : (b.drop (p + 16)).take (e + 1) = pre' ++ [0x7D] := by
    rw [hrest']
    exact List.take_left' (by simp [hpre'])
  refine ⟨pre' ++ [0x7D], ?_, by simp, by simp, ?_, ?_⟩
  · rw [blobLocator_ret_of_firstAt hp he, hblob]
  · rintro i ⟨a, c, hac, ha⟩
    have hi : i < e := by
      have := congrArg List.length hac
      simp only [List.length_append, List.length_singleton, closing_length] at this
      omega
    apply he.2 i hi
    refine ⟨a, c ++ (0x3B :: post'), ?_, ha⟩
    rw [hrest', hac]
    simp
  · refine ⟨b.take (p + 16), 0x3B :: post', ?_, ?_⟩
    · rw [List.append_assoc, ← hrest', List.take_append_drop]
    · rw [List.length_take, dataBytes_length]
      omega

/-- C20 (witness): a blob whose string value holds the closing sequence is cut
at that inner occurrence. -/
theorem blobLocator_blob_invariants_witness :
    blobLocator innerClosingPage = .ret (utf8 "\x7b\"a\":\"\x7d")
      ∧ ∃ blob, blobLocator innerClosingPage = .ret blob
        ∧ blob ≠ []
        ∧ blob.getLast? = some 0x7D
        ∧ (∀ i, ¬ OccursAt closing blob i)
        ∧ ∃ pre post, innerClosingPage = pre ++ blob ++ post
          ∧ 4 + dataBytes.length ≤ pre.length :=
  ⟨by decide,
    blobLocator_blob_invariants innerClosingPage 4 6
      ((findIndex_eq_some _ _ _).mp (by decide))
      ((findIndex_eq_some _ _ _).mp (by decide)).1⟩


end YoutubeSearch
